import Mathlib

/-!
# ProductResource: a verification development of `backend/routes/products.js`

The route module is embedded shallowly.  Every handler becomes a function from
the store (an oracle answering the parameterised query it is given) and the
request fields to the response together with the list of queries the handler
issued, in order.  The library functions the handlers call
(`String.prototype.replace`, `RegExp.prototype.test`, `path.extname`,
`Number::toString`, the `isInt` and `isEmpty` validators) are embedded next to
them, following their reference algorithms; `String.prototype.toLowerCase` is
taken as given.

Strings the program computes with are lists of characters; the constant SQL
texts and messages are string literals.
-/

namespace ProductResource

/-! ## Values -/

/-- A string value of the program, as its sequence of characters. -/
abbrev JSString := List Char

/-- The request and parameter values the handlers receive: a body field or a
bound parameter is absent (`undefined`), `null`, a boolean, a number whose
value is the integer `n`, or a string.  Non-integral numbers, arrays and
objects are outside this development. -/
inductive JSValue where
  | undefined
  | null
  | bool (b : Bool)
  | num (n : Int)
  | str (s : JSString)
  deriving DecidableEq, Repr

/-- A row of a result set: column names with their values. -/
abbrev Row := List (String × JSValue)

/-- What the promisified `connection.query` resolves to: the rows of a
`SELECT`, or the packet of a statement that changes rows, which carries
`insertId`. -/
inductive QueryResult where
  | rows (rs : List Row)
  | okPacket (insertId : Nat)
  deriving DecidableEq, Repr

/-- The error a rejected `connection.query` carries. -/
structure StoreError where
  code : String
  message : String
  deriving DecidableEq, Repr

/-- One call `query(sql, params)`. -/
structure Query where
  sql : String
  params : List JSValue
  deriving DecidableEq, Repr

/-- The store: for every query either an error or a result. -/
abbrev Store := Query → Except StoreError QueryResult

/-- One entry of `validationResult(req).array()`. -/
structure ValidationError where
  value : JSValue
  msg : String
  param : String
  location : String
  deriving DecidableEq, Repr

/-- The argument of `res.json(...)`. -/
inductive Json where
  | undefined
  | result (r : QueryResult)
  | row (r : Row)
  | object1 (key : String) (v : JSValue)
  | errors (es : List ValidationError)
  deriving DecidableEq, Repr

/-- The body of a response: `res.json(v)` or `res.send(text)`. -/
inductive Body where
  | json (v : Json)
  | send (text : String)
  deriving DecidableEq, Repr

/-- The response a handler produces. -/
structure Response where
  status : Nat
  body : Body
  deriving DecidableEq, Repr

/-- The catch blocks in the handlers: `res.status(500).send('Internal Server Error')`. -/
def internalServerError : Response :=
  ⟨500, .send "Internal Server Error"⟩

/-- Truthiness of a value (`ToBoolean`). -/
def truthy : JSValue → Bool
  | .undefined => false
  | .null => false
  | .bool b => b
  | .num n => n != 0
  | .str s => !s.isEmpty

/-- `results.insertId`: the packet's id, `undefined` on anything else. -/
def insertIdOf : QueryResult → JSValue
  | .okPacket id => .num id
  | .rows _ => .undefined

/-- `result[0]`: the first row, `undefined` when there is none. -/
def index0 : QueryResult → Json
  | .rows (r :: _) => .row r
  | .rows [] => .undefined
  | .okPacket _ => .undefined

/-! ## `String.prototype.replace` with a string pattern -/

/-- `StringIndexOf(s, pat, 0)`: the least position at which `pat` starts in
`s`, if any. -/
def indexOf (pat : JSString) : JSString → Option Nat
  | [] => if pat.isPrefixOf [] then some 0 else none
  | c :: cs =>
    if pat.isPrefixOf (c :: cs) then some 0
    else (indexOf pat cs).map (· + 1)

/-- `s.replace(pat, rep)` for a string `pat` and a replacement without `$`:
the text before the first occurrence, the replacement, and the text after
it; `s` itself when there is no occurrence. -/
def replace (s pat rep : JSString) : JSString :=
  match indexOf pat s with
  | none => s
  | some pos => s.take pos ++ rep ++ s.drop (pos + pat.length)

/-- `x.replace('%20', ' ')` on a value: a `TypeError` (`none`) unless `x` is a
string. -/
def replacePercent20 : JSValue → Option JSString
  | .str s => some (replace s "%20".toList " ".toList)
  | _ => none

/-! ## SearchProducts: `router.post('/search')` -/

def sqlSearchBoth : String := "SELECT * FROM Products WHERE brand like ? and name like ?"
def sqlSearchBrand : String := "SELECT * FROM Products WHERE brand like ?"
def sqlSearchName : String := "SELECT * FROM Products WHERE name like ?"

/-- The part of the search handler after the two reassignments: the branch on
the (reassigned) `brand` and `keyword`, the query and the response. -/
def searchDispatch (db : Store) (brand keyword : JSValue) : Response × List Query :=
  let finish (q : Query) : Response × List Query :=
    match db q with
    | .ok response => (⟨200, .json (.result response)⟩, [q])
    | .error _ => (internalServerError, [q])
  if truthy brand && truthy keyword then finish ⟨sqlSearchBoth, [brand, keyword]⟩
  else if truthy brand then finish ⟨sqlSearchBrand, [brand]⟩
  else if truthy keyword then finish ⟨sqlSearchName, [keyword]⟩
  else (⟨200, .json .undefined⟩, [])

/-- The search handler, on the body fields `brand` and `keyword`. -/
def searchProducts (db : Store) (brand keyword : JSValue) : Response × List Query :=
  if brand = .str [] ∧ keyword = .str [] then
    (⟨200, .json (.result (.rows []))⟩, [])
  else
    match replacePercent20 brand with
    | none => (internalServerError, [])
    | some b =>
      let brand := JSValue.str ("%".toList ++ b ++ "%".toList)
      match replacePercent20 keyword with
      | none => (internalServerError, [])
      | some k =>
        let keyword := JSValue.str ("%".toList ++ k ++ "%".toList)
        searchDispatch db brand keyword

/-! ## `RegExp.prototype.test` for an alternation of literals -/

/-- One attempt of the matcher at the current position: the alternatives are
tried from left to right, each as the text that comes next. -/
def matchAt (alts : List JSString) (s : JSString) : Bool :=
  alts.any (fun alt => alt.isPrefixOf s)

/-- `re.test(s)` for an unanchored, flagless `re` that is an alternation of
literals: the matcher is tried at position 0, then 1, and so on up to the end
of `s`, and the first success answers `true`. -/
def test (alts : List JSString) : JSString → Bool
  | [] => matchAt alts []
  | c :: cs => matchAt alts (c :: cs) || test alts cs

/-! ## `String.prototype.toLowerCase` -/

/-- The method `String.prototype.toLowerCase`, taken as given: the Unicode
case tables it reads are not part of this development.  What is used of it is
its behaviour on ASCII text, where `A`-`Z` become `a`-`z` and every other
character is kept. -/
structure LowerCasing where
  toLowerCase : JSString → JSString
  ascii : ∀ s : JSString, (∀ c ∈ s, c.toNat < 128) → toLowerCase s = s.map Char.toLower

/-! ## `path.extname` (POSIX) -/

namespace path

/-- The variables of the scan in `extname`; `-1` is the unset position. -/
structure Scan where
  startDot : Int
  startPart : Int
  end_ : Int
  matchedSlash : Bool
  preDotState : Int
  deriving DecidableEq, Repr

/-- The loop `for (i = path.length - 1; i >= 0; --i)` of `extname`; the first
argument is `i + 1`. -/
def scan (path : JSString) : Nat → Scan → Scan
  | 0, st => st
  | i + 1, st =>
    if path[i]? = some '/' then
      if !st.matchedSlash then { st with startPart := i + 1 }
      else scan path i st
    else
      let st1 : Scan :=
        if st.end_ = -1 then { st with matchedSlash := false, end_ := i + 1 } else st
      let st2 : Scan :=
        if path[i]? = some '.' then
          if st1.startDot = -1 then { st1 with startDot := i }
          else if st1.preDotState ≠ 1 then { st1 with preDotState := 1 }
          else st1
        else if st1.startDot ≠ -1 then { st1 with preDotState := -1 }
        else st1
      scan path i st2

/-- `path.slice(start, end)` for positions inside the string. -/
def slice (path : JSString) (start stop : Int) : JSString :=
  (path.drop start.toNat).take (stop.toNat - start.toNat)

/-- `path.extname(p)`: from the last `.` of the last path component to its
end; empty when there is no `.`, when the component starts with its only `.`,
or when it is `..`. -/
def extname (path : JSString) : JSString :=
  let st := scan path path.length ⟨-1, 0, -1, true, 0⟩
  if st.startDot = -1 ∨ st.end_ = -1 ∨ st.preDotState = 0 ∨
      (st.preDotState = 1 ∧ st.startDot = st.end_ - 1 ∧ st.startDot = st.startPart + 1) then
    []
  else slice path st.startDot st.end_

end path

/-! ## The upload filter -/

/-- The file object the upload middleware hands to the filter. -/
structure File where
  fieldname : JSString
  originalname : JSString
  mimetype : JSString
  deriving DecidableEq, Repr

/-- The arguments `cb` is called with: `cb(null, true)` or `cb(message)`. -/
structure CbCall where
  error : Option String
  accept : Option Bool
  deriving DecidableEq, Repr

/-- The alternatives of `/jpeg|jpg|png|gif/`. -/
def filetypes : List JSString :=
  ["jpeg".toList, "jpg".toList, "png".toList, "gif".toList]

/-- The function `checkFileType(file, cb)`, as the call of `cb` it makes. -/
def checkFileType (lc : LowerCasing) (file : File) : CbCall :=
  let extname := test filetypes (lc.toLowerCase (path.extname file.originalname))
  let mimetype := test filetypes file.mimetype
  if mimetype && extname then ⟨none, some true⟩
  else ⟨some "Error: Images Only!", none⟩

/-! ## `Number::toString` on integer values -/

/-- The Number nearest to the natural number `m`, ties to the even
significand: `m` itself below `2 ^ 53`, and above it `m` rounded to 53
significant bits, the bit length of `m` being the length of its binary
numeral.  (Overflow to `Infinity` is outside this development.) -/
def toDouble (m : Nat) : Nat :=
  if m < 2 ^ 53 then m
  else
    let e := (Nat.toDigits 2 m).length - 53
    let q := m / 2 ^ e
    let r := m % 2 ^ e
    if 2 ^ e < 2 * r ∨ (2 * r = 2 ^ e ∧ q % 2 = 1) then (q + 1) * 2 ^ e else q * 2 ^ e

/-- The numerals `s × 10 ^ e` with a `k`-digit `s` that lie next to `v`: the
last one below `v`, the first one above it, and the first power of ten above
it. -/
def candidates (v k : Nat) : List (Nat × Nat) :=
  let d := (Nat.toDigits 10 v).length
  [(v / 10 ^ (d - k), d - k), (v / 10 ^ (d - k) + 1, d - k),
    (v / 10 ^ (d + 1 - k) + 1, d + 1 - k)]

/-- The numeral `s × 10 ^ e` has `k` digits and reads back as `v`. -/
def readsBack (v k : Nat) (c : Nat × Nat) : Bool :=
  decide (10 ^ (k - 1) ≤ c.1) && decide (c.1 < 10 ^ k) && decide (toDouble (c.1 * 10 ^ c.2) = v)

/-- The distance between two natural numbers. -/
def distance (a b : Nat) : Nat := (a - b) + (b - a)

/-- Of two numerals the one closer to `v`, the even one when they are equally
close. -/
def closer (v : Nat) (a b : Nat × Nat) : Nat × Nat :=
  if distance (b.1 * 10 ^ b.2) v < distance (a.1 * 10 ^ a.2) v then b
  else if distance (b.1 * 10 ^ b.2) v = distance (a.1 * 10 ^ a.2) v ∧ b.1 % 2 = 0 then b
  else a

/-- The numeral closest to `v` in a list. -/
def closest (v : Nat) : List (Nat × Nat) → Option (Nat × Nat)
  | [] => none
  | c :: cs => some (cs.foldl (closer v) c)

/-- The integers `s` and `e` of `Number::toString`: `s × 10 ^ e` reads back as
`v` and `s` has as few digits as possible; among those the closest to `v`. -/
def shortest (v : Nat) : Nat × Nat :=
  ((List.range (Nat.toDigits 10 v).length).findSome?
    (fun i => closest v ((candidates v (i + 1)).filter (readsBack v (i + 1))))).getD (v, 0)

/-- The digits `ds` with a decimal point after the first when there are
several, as in `1.5e+21`. -/
def mantissa : JSString → JSString
  | [] => []
  | [d] => [d]
  | d :: ds => d :: '.' :: ds

/-- `String(v)` for a natural number `v` of at least `2 ^ 53`: the digits of
`s` followed by `e` zeros when that has at most 21 digits, and exponent
notation otherwise. -/
def largeToString (v : Nat) : JSString :=
  let s := (shortest v).1
  let e := (shortest v).2
  let digits := Nat.toDigits 10 s
  if digits.length + e ≤ 21 then digits ++ List.replicate e '0'
  else mantissa digits ++ "e+".toList ++ Nat.toDigits 10 (digits.length + e - 1)

/-- `String(n)` for an integer-valued number: a `-` for a negative number,
then, below `2 ^ 53` in magnitude, the decimal numeral of `n`, which is there
the only numeral that reads back as `n`; from `2 ^ 53` on, the shortest
numeral that reads back as the number, in exponent notation from `10 ^ 21`
on. -/
def numberToString (n : Int) : JSString :=
  (if n < 0 then ['-'] else []) ++
    (if n.natAbs < 2 ^ 53 then Nat.toDigits 10 n.natAbs else largeToString n.natAbs)

/-! ## The validators -/

/-- The text a validator is run on (the validation library's `toString`):
empty for an absent or `null` field, `String(value)` otherwise. -/
def fieldToString : JSValue → JSString
  | .undefined => []
  | .null => []
  | .bool b => if b then "true".toList else "false".toList
  | .num n => numberToString n
  | .str s => s

/-- `isEmpty(str)`: `str.length === 0`. -/
def isEmpty (str : JSString) : Bool :=
  str.length == 0

/-- The text after the optional sign that `[-+]?` takes. -/
def afterSign (str : JSString) : JSString :=
  if str.head? = some '-' ∨ str.head? = some '+' then str.tail else str

/-- The regular expression `/^[-+]?[0-9]+$/` the validator `isInt` uses when
leading zeroes are not forbidden. -/
def intLeadingZeroes (str : JSString) : Bool :=
  !(afterSign str).isEmpty && (afterSign str).all Char.isDigit

/-- The value of a run of decimal digits. -/
def digitsValue (ds : JSString) : Nat :=
  ds.foldl (fun acc c => 10 * acc + (c.toNat - '0'.toNat)) 0

/-- The number a signed run of digits converts to when it is compared with
`min` and `max`. -/
def toNumber (str : JSString) : Int :=
  if str.head? = some '-' then -(digitsValue str.tail : Int)
  else digitsValue (afterSign str)

/-- `isInt(str, { min, max })`; an absent option is `none`.  The result is the
conjunction of the regular expression test and the two bound checks. -/
def isInt (str : JSString) (min max : Option Int) : Bool :=
  intLeadingZeroes str &&
    (match min with | none => true | some m => decide (m ≤ toNumber str)) &&
    (match max with | none => true | some m => decide (toNumber str ≤ m))

/-- A chain `body(param, msg).not().isEmpty()` run on the field's value. -/
def notEmptyChain (param msg : String) (value : JSValue) : List ValidationError :=
  if isEmpty (fieldToString value) then [⟨value, msg, param, "body"⟩] else []

/-- A chain `body(param, msg).isInt(options)` run on the field's value. -/
def isIntChain (param msg : String) (min max : Option Int) (value : JSValue) :
    List ValidationError :=
  if isInt (fieldToString value) min max then [] else [⟨value, msg, param, "body"⟩]

/-! ## CreateProduct: `router.post('/')` -/

/-- The file the upload middleware stored, as `req.file`. -/
structure StoredFile where
  filename : JSString
  deriving DecidableEq, Repr

/-- The request as the product handler sees it: the body fields and `req.file`. -/
structure ProductRequest where
  name : JSValue
  description : JSValue
  categoryid : JSValue
  brand : JSValue
  price : JSValue
  img_src : JSValue
  file : Option StoredFile
  deriving DecidableEq, Repr

def sqlInsertProduct : String :=
  "INSERT INTO Products (name, description, categoryid, brand, price, img_name, img_src) VALUES (?,?,?,?,?,?,?)"

/-- The five validation chains of the route, in their order. -/
def productErrors (req : ProductRequest) : List ValidationError :=
  notEmptyChain "name" "Please provide a valid name." req.name ++
  notEmptyChain "description" "Please provide a valid description" req.description ++
  isIntChain "categoryid" "Please provide a valid categoryid" none none req.categoryid ++
  notEmptyChain "brand" "Please provide a valid brand" req.brand ++
  notEmptyChain "price" "Please provide a valid price" req.price

/-- The product creation handler. -/
def createProduct (db : Store) (req : ProductRequest) : Response × List Query :=
  let errors := productErrors req
  if !errors.isEmpty then (⟨400, .json (.errors errors)⟩, [])
  else
    let img_src := if req.img_src = .str [] then JSValue.null else req.img_src
    let img_name :=
      match req.file with
      | some file => JSValue.str file.filename
      | none => JSValue.null
    let q : Query := ⟨sqlInsertProduct,
      [req.name, req.description, req.categoryid, req.brand, req.price, img_name, img_src]⟩
    match db q with
    | .ok results => (⟨201, .json (.object1 "productid" (insertIdOf results))⟩, [q])
    | .error _ => (internalServerError, [q])

/-! ## GetProductById, ListProducts, DeleteProduct -/

def sqlGetProduct : String :=
  "SELECT Products.name as name, Products.description as description, categoryid, Categories.name as categoryname, brand, price from Products inner join Categories on Products.categoryid=Categories.id where Products.id=?;"

def sqlListProducts : String := "SELECT * FROM Products"

def sqlDeleteProduct : String := "DELETE FROM Products WHERE id=?"

/-- The handler of `router.get('/:id')`. -/
def getProductById (db : Store) (id : JSString) : Response × List Query :=
  let q : Query := ⟨sqlGetProduct, [.str id]⟩
  match db q with
  | .ok result => (⟨200, .json (index0 result)⟩, [q])
  | .error _ => (internalServerError, [q])

/-- The handler of `router.get('/')`. -/
def listProducts (db : Store) : Response × List Query :=
  let q : Query := ⟨sqlListProducts, []⟩
  match db q with
  | .ok result => (⟨200, .json (.result result)⟩, [q])
  | .error _ => (internalServerError, [q])

/-- The handler of `router.delete('/:id')`. -/
def deleteProduct (db : Store) (id : JSString) : Response × List Query :=
  let q : Query := ⟨sqlDeleteProduct, [.str id]⟩
  match db q with
  | .ok _ => (⟨204, .send "No Content"⟩, [q])
  | .error _ => (internalServerError, [q])

/-! ## CreateReview and ListReviewsForProduct -/

/-- The request as the review handler sees it: `req.user.id`, `req.params.id`
and the two body fields. -/
structure ReviewRequest where
  userId : JSValue
  productId : JSString
  rating : JSValue
  review : JSValue
  deriving DecidableEq, Repr

def sqlInsertReview : String :=
  "INSERT INTO Reviews (userid, productid, rating, review) VALUES (?,?,?,?)"

def sqlListReviews : String :=
  "SELECT Products.id as productid, Users.id as userid, Users.username as username, Reviews.rating as rating, Reviews.review as review, Reviews.created_at as created_at from Products inner join Reviews on Products.id=Reviews.productid join Users on Users.id=Reviews.userid WHERE Products.id=?"

/-- The two validation chains of the review route, in their order. -/
def reviewErrors (req : ReviewRequest) : List ValidationError :=
  isIntChain "rating" "Please provide a valid rating" (some 0) (some 5) req.rating ++
  notEmptyChain "review" "Please provide a valid review" req.review

/-- The handler of `router.post('/:id/review')`. -/
def createReview (db : Store) (req : ReviewRequest) : Response × List Query :=
  let errors := reviewErrors req
  if !errors.isEmpty then (⟨400, .json (.errors errors)⟩, [])
  else
    let q : Query := ⟨sqlInsertReview,
      [req.userId, .str req.productId, req.rating, req.review]⟩
    match db q with
    | .ok results => (⟨201, .json (.object1 "reviewid" (insertIdOf results))⟩, [q])
    | .error _ => (internalServerError, [q])

/-- The handler of `router.get('/:id/review')`. -/
def listReviews (db : Store) (id : JSString) : Response × List Query :=
  let q : Query := ⟨sqlListReviews, [.str id]⟩
  match db q with
  | .ok results => (⟨200, .json (.result results)⟩, [q])
  | .error _ => (internalServerError, [q])

/-! ## Stores used in examples -/

/-- A store in which every query succeeds with no rows. -/
def emptyStore : Store := fun _ => .ok (.rows [])

/-- A store in which every query fails. -/
def failingStore : Store := fun _ => .error ⟨"ECONNREFUSED", "connect ECONNREFUSED 127.0.0.1:3306"⟩

/-- A store in which every query succeeds with the packet of an insertion. -/
def insertingStore : Store := fun _ => .ok (.okPacket 42)

/-- A product request with every required field, an empty `img_src` and no
file. -/
def sampleProduct : ProductRequest :=
  ⟨.str "Runner".toList, .str "A shoe".toList, .str "3".toList, .str "Nike".toList,
    .str "59.90".toList, .str [], none⟩

/-- A product request with every required field, whose categoryid is the
number `10 ^ 21`. -/
def largeCategoryProduct : ProductRequest :=
  ⟨.str "Runner".toList, .str "A shoe".toList, .num 1000000000000000000000,
    .str "Nike".toList, .str "59.90".toList, .undefined, none⟩

/-- The lower-casing of the letters `A`-`Z` alone, for the examples, whose
file names are ASCII. -/
def asciiLowerCasing : LowerCasing :=
  ⟨fun s => s.map Char.toLower, fun _ _ => rfl⟩

/-! ## The statements of the specification -/

namespace Spec

/-- The normalisation of a search term in the specification's words: `t'` is
`t` when `t` has no `%20`; otherwise `t` is `u ++ "%20" ++ v` with no `%20`
inside `u ++ "%2"`, and `t'` is `u ++ " " ++ v`. -/
def Percent20Replaced (t t' : JSString) : Prop :=
  (¬ "%20".toList <:+: t ∧ t' = t) ∨
  ∃ u v, t = u ++ "%20".toList ++ v ∧ ¬ "%20".toList <:+: u ++ "%2".toList ∧
    t' = u ++ " ".toList ++ v

/-- The pattern of a term in the specification's words: the normalised term
between two `%`. -/
def IsPatternOf (t p : JSString) : Prop :=
  ∃ t', Percent20Replaced t t' ∧ p = "%".toList ++ t' ++ "%".toList

/-- A decimal digit. -/
def IsDigit (c : Char) : Prop := '0' ≤ c ∧ c ≤ '9'

/-- The digits `ds`, most significant first, are a decimal numeral of `n`. -/
def IsDecimal (ds : JSString) (n : Nat) : Prop :=
  ds ≠ [] ∧ (∀ c ∈ ds, IsDigit c) ∧
    Nat.ofDigits 10 (ds.reverse.map (fun c => c.toNat - '0'.toNat)) = n

/-- The text `s` writes the integer `n`: an optional sign, then a decimal
numeral. -/
def Writes (s : JSString) (n : Int) : Prop :=
  ∃ ds m, IsDecimal ds m ∧
    ((s = ds ∧ n = m) ∨ (s = '+' :: ds ∧ n = m) ∨ (s = '-' :: ds ∧ n = -(m : Int)))

/-- The field `v` is the integer `n`: the number `n`, or a text that writes
`n`. -/
def IsInteger (v : JSValue) (n : Int) : Prop :=
  match v with
  | .num m => m = n
  | .str s => Writes s n
  | _ => False

/-- The field `v` is non-empty: it is there and is not the empty text. -/
def NonEmpty (v : JSValue) : Prop :=
  match v with
  | .undefined => False
  | .null => False
  | .str s => s ≠ []
  | _ => True

/-- A rating the review route accepts in the specification's words: an
integer between 0 and 5. -/
def RatingValid (rating : JSValue) : Prop :=
  ∃ n : Int, IsInteger rating n ∧ 0 ≤ n ∧ n ≤ 5

/-- A category id parses as an integer. -/
def ParsesAsInteger (v : JSValue) : Prop :=
  ∃ n : Int, IsInteger v n

/-- The text of the field `v` is an integer numeral: the string itself, or
`String(n)` for a number, is an optional sign followed by decimal digits. -/
def TextIsInteger (v : JSValue) : Prop :=
  ∃ n : Int, Writes (fieldToString v) n

/-- A request the product route accepts: name, description, brand and price
are non-empty and the text of categoryid is an integer numeral. -/
def ProductAccepted (req : ProductRequest) : Prop :=
  NonEmpty req.name ∧ NonEmpty req.description ∧ TextIsInteger req.categoryid ∧
    NonEmpty req.brand ∧ NonEmpty req.price

/-- A request that meets the five rules as the specification words them: name,
description, brand and price are non-empty and categoryid parses as an
integer. -/
def ProductValid (req : ProductRequest) : Prop :=
  NonEmpty req.name ∧ NonEmpty req.description ∧ ParsesAsInteger req.categoryid ∧
    NonEmpty req.brand ∧ NonEmpty req.price

/-- The outcome `out` of a handler run against `db` follows the store: a
query it issued that failed gives the response 500 with the plain text
`Internal Server Error` and is the only query issued; a query it issued that
succeeded gives the status `success` and is the only query issued. -/
def FollowsStore (db : Store) (success : Nat) (out : Response × List Query) : Prop :=
  ∀ q ∈ out.2,
    (∀ e, db q = .error e → out = (⟨500, .send "Internal Server Error"⟩, [q])) ∧
    (∀ r, db q = .ok r → out.1.status = success ∧ out.2 = [q])

end Spec

end ProductResource

/-! # Theorems -/

namespace ProductResource

/-! ## Facts about `indexOf` and `replace` -/

theorem indexOf_of_prefix (pat s : JSString) (h : pat <+: s) : indexOf pat s = some 0 := by
  cases s with
  | nil => simp [indexOf, List.isPrefixOf_iff_prefix, h]
  | cons c cs => simp [indexOf, List.isPrefixOf_iff_prefix, h]

theorem indexOf_eq_none_iff (pat s : JSString) : indexOf pat s = none ↔ ¬ pat <:+: s := by
  induction s with
  | nil =>
    simp only [indexOf, List.isPrefixOf_iff_prefix]
    by_cases h : pat <+: []
    · simp [h, h.isInfix]
    · simp only [h, if_false, true_iff]
      intro hi
      exact h (by rw [List.infix_nil] at hi; rw [hi])
  | cons c cs ih =>
    simp only [indexOf, List.isPrefixOf_iff_prefix]
    by_cases h : pat <+: c :: cs
    · simp [h, h.isInfix]
    · simp only [h, if_false, Option.map_eq_none', ih, List.infix_cons_iff, false_or]

theorem replace_of_not_infix (s pat rep : JSString) (h : ¬ pat <:+: s) :
    replace s pat rep = s := by
  simp [replace, (indexOf_eq_none_iff pat s).2 h]

theorem prefix_of_dropLast_append (u pat v : JSString) :
    u ++ pat.dropLast <+: u ++ pat ++ v := by
  rw [List.append_assoc]
  exact (List.prefix_append_right_inj u).2
    ((List.dropLast_prefix pat).trans (List.prefix_append pat v))

theorem indexOf_first (pat u v : JSString) (hp : pat ≠ [])
    (h : ¬ pat <:+: u ++ pat.dropLast) : indexOf pat (u ++ pat ++ v) = some u.length := by
  induction u with
  | nil => exact indexOf_of_prefix _ _ (by simp)
  | cons c u ih =>
    have hnp : ¬ pat <+: c :: u ++ pat ++ v := by
      intro hpre
      apply h
      have hlen : pat.length ≤ (c :: u ++ pat.dropLast).length := by
        have : 0 < pat.length := List.length_pos.2 hp
        simp only [List.length_append, List.length_cons, List.length_dropLast]
        omega
      exact (List.prefix_of_prefix_length_le hpre
        (prefix_of_dropLast_append (c :: u) pat v) hlen).isInfix
    have hrec : ¬ pat <:+: u ++ pat.dropLast := by
      intro hi
      apply h
      rw [List.cons_append, List.infix_cons_iff]
      exact Or.inr hi
    have hnp2 : ¬ pat <+: c :: (u ++ pat ++ v) := by simpa using hnp
    show indexOf pat (c :: (u ++ pat ++ v)) = some (u.length + 1)
    rw [indexOf, if_neg (by simpa [List.isPrefixOf_iff_prefix] using hnp2), ih hrec]
    rfl

theorem replace_first (pat rep u v : JSString) (hp : pat ≠ [])
    (h : ¬ pat <:+: u ++ pat.dropLast) : replace (u ++ pat ++ v) pat rep = u ++ rep ++ v := by
  simp only [replace, indexOf_first pat u v hp h]
  simp [List.append_assoc, List.take_append_eq_append_take, List.drop_append_eq_append_drop]

theorem indexOf_some_split (pat : JSString) (hp : pat ≠ []) (s : JSString) (n : Nat)
    (h : indexOf pat s = some n) :
    ∃ u v, s = u ++ pat ++ v ∧ u.length = n ∧ ¬ pat <:+: u ++ pat.dropLast := by
  induction s generalizing n with
  | nil =>
    simp only [indexOf, List.isPrefixOf_iff_prefix, List.prefix_nil, hp, if_false] at h
    cases h
  | cons c cs ih =>
    simp only [indexOf, List.isPrefixOf_iff_prefix] at h
    by_cases hpre : pat <+: c :: cs
    · obtain ⟨v, hv⟩ := hpre
      simp only [List.prefix_iff_eq_append, ← hv, List.take_left', if_true] at h
      refine ⟨[], v, by simp [hv], by simpa using h, ?_⟩
      intro hi
      have h1 := hi.length_le
      have : 0 < pat.length := List.length_pos.2 hp
      simp only [List.nil_append, List.length_dropLast] at h1
      omega
    · simp only [hpre, if_false, Option.map_eq_some'] at h
      obtain ⟨m, hm, hn⟩ := h
      obtain ⟨u, v, hs, hl, hno⟩ := ih m hm
      refine ⟨c :: u, v, by simp [hs], by simp [hl, hn], ?_⟩
      intro hi
      rw [List.cons_append, List.infix_cons_iff] at hi
      rcases hi with hi | hi
      · apply hpre
        have := prefix_of_dropLast_append (c :: u) pat v
        rw [hs]
        simpa using hi.trans this
      · exact hno hi

/-! ## SearchProducts -/

/-- The pattern the handler computes from a term. -/
theorem percent20Replaced_replace (t : JSString) :
    Spec.Percent20Replaced t (replace t "%20".toList " ".toList) := by
  cases h : indexOf "%20".toList t with
  | none =>
    exact Or.inl ⟨(indexOf_eq_none_iff _ _).1 h,
      replace_of_not_infix _ _ _ ((indexOf_eq_none_iff _ _).1 h)⟩
  | some n =>
    obtain ⟨u, v, hs, _, hno⟩ := indexOf_some_split "%20".toList (by decide) t n h
    refine Or.inr ⟨u, v, hs, hno, ?_⟩
    rw [hs]
    exact replace_first _ _ u v (by decide) hno

theorem percent20Replaced_unique (t t' : JSString) (h : Spec.Percent20Replaced t t') :
    t' = replace t "%20".toList " ".toList := by
  rcases h with ⟨hno, ht⟩ | ⟨u, v, hs, hno, ht⟩
  · rw [ht, replace_of_not_infix _ _ _ hno]
  · rw [ht, hs]
    exact (replace_first _ _ u v (by decide) hno).symm

theorem searchDispatch_wrapped (db : Store) (x y : JSString) :
    searchDispatch db (.str ("%".toList ++ x ++ "%".toList)) (.str ("%".toList ++ y ++ "%".toList))
      = match db ⟨sqlSearchBoth, [.str ("%".toList ++ x ++ "%".toList),
                    .str ("%".toList ++ y ++ "%".toList)]⟩ with
        | .ok response => (⟨200, .json (.result response)⟩,
            [⟨sqlSearchBoth, [.str ("%".toList ++ x ++ "%".toList),
              .str ("%".toList ++ y ++ "%".toList)]⟩])
        | .error _ => (internalServerError,
            [⟨sqlSearchBoth, [.str ("%".toList ++ x ++ "%".toList),
              .str ("%".toList ++ y ++ "%".toList)]⟩]) := by
  simp [searchDispatch, truthy]

theorem searchProducts_strings (db : Store) (b k : JSString) (h : ¬ (b = [] ∧ k = [])) :
    searchProducts db (.str b) (.str k)
      = searchDispatch db
          (.str ("%".toList ++ replace b "%20".toList " ".toList ++ "%".toList))
          (.str ("%".toList ++ replace k "%20".toList " ".toList ++ "%".toList)) := by
  have h' : ¬ (JSValue.str b = .str [] ∧ JSValue.str k = .str []) := by
    simpa using h
  simp only [searchProducts, if_neg h', replacePercent20]

theorem searchProducts_trace (db : Store) (b k : JSString) (h : ¬ (b = [] ∧ k = [])) :
    (searchProducts db (.str b) (.str k)).2
      = [⟨sqlSearchBoth,
          [.str ("%".toList ++ replace b "%20".toList " ".toList ++ "%".toList),
           .str ("%".toList ++ replace k "%20".toList " ".toList ++ "%".toList)]⟩] := by
  rw [searchProducts_strings db b k h, searchDispatch_wrapped]
  split <;> rfl

/-- C1 (evaluation at the failing inputs): with a brand and an empty keyword,
and with an empty brand and a keyword, the handler issues the query on brand
AND name with two patterns, the empty term bound as `%%`; it issues neither the
brand-only nor the name-only query. -/
theorem search_one_term_issues_both_query (db : Store) :
    (searchProducts db (.str "nike".toList) (.str [])).2
        = [⟨sqlSearchBoth, [.str "%nike%".toList, .str "%%".toList]⟩] ∧
    (searchProducts db (.str "nike".toList) (.str [])).2
        ≠ [⟨sqlSearchBrand, [.str "%nike%".toList]⟩] ∧
    (searchProducts db (.str []) (.str "shoe".toList)).2
        = [⟨sqlSearchBoth, [.str "%%".toList, .str "%shoe%".toList]⟩] ∧
    (searchProducts db (.str []) (.str "shoe".toList)).2
        ≠ [⟨sqlSearchName, [.str "%shoe%".toList]⟩] := by
  have h1 := searchProducts_trace db "nike".toList [] (by decide)
  have h2 := searchProducts_trace db [] "shoe".toList (by decide)
  have e1 : replace "nike".toList "%20".toList " ".toList = "nike".toList := by decide
  have e2 : replace [] "%20".toList " ".toList = [] := by decide
  have e3 : replace "shoe".toList "%20".toList " ".toList = "shoe".toList := by decide
  rw [e1, e2] at h1
  rw [e2, e3] at h2
  refine ⟨h1, ?_, h2, ?_⟩
  · rw [h1]; decide
  · rw [h2]; decide

/-- C2: a search with brand `""` and keyword `""` answers 200 with the JSON
body `[]` and issues no query; for every other pair of strings the handler
issues exactly one query. -/
theorem search_empty_no_query_else_one :
    (∀ db : Store, searchProducts db (.str []) (.str [])
        = (⟨200, .json (.result (.rows []))⟩, [])) ∧
    (∀ (db : Store) (brand keyword : JSString), ¬ (brand = [] ∧ keyword = []) →
        (searchProducts db (.str brand) (.str keyword)).2.length = 1) := by
  refine ⟨fun db => by simp [searchProducts], fun db b k h => ?_⟩
  rw [searchProducts_trace db b k h]
  rfl

theorem search_empty_no_query_else_one_witness :
    ¬ ("nike".toList = [] ∧ ([] : JSString) = []) ∧
    (searchProducts failingStore (.str "nike".toList) (.str [])).2.length = 1 :=
  ⟨by decide, search_empty_no_query_else_one.2 failingStore "nike".toList [] (by decide)⟩

/-- C3: in a search that reaches the store, the parameters bound are the
patterns of brand and keyword, each `"%" ++ t' ++ "%"` where `t'` is the term
with its leftmost `%20` turned into a space and nothing else changed; a term
without `%20` is bound as `"%" ++ t ++ "%"`; in `u ++ "%20" ++ v` with no `%20`
inside `u ++ "%2"` the pattern is `"%" ++ u ++ " " ++ v ++ "%"`, so later
occurrences stay; keyword `a%20b` is bound as `%a b%`. -/
theorem search_binds_percent20_patterns :
    (∀ (db : Store) (brand keyword : JSString), ¬ (brand = [] ∧ keyword = []) →
      ∃ pb pk, Spec.IsPatternOf brand pb ∧ Spec.IsPatternOf keyword pk ∧
        (searchProducts db (.str brand) (.str keyword)).2.map Query.params
          = [[.str pb, .str pk]]) ∧
    (∀ t p : JSString, Spec.IsPatternOf t p → ¬ "%20".toList <:+: t →
      p = "%".toList ++ t ++ "%".toList) ∧
    (∀ u v p : JSString, Spec.IsPatternOf (u ++ "%20".toList ++ v) p →
      ¬ "%20".toList <:+: u ++ "%2".toList →
      p = "%".toList ++ (u ++ " ".toList ++ v) ++ "%".toList) ∧
    (∀ db : Store, (searchProducts db (.str []) (.str "a%20b".toList)).2.map Query.params
      = [[.str "%%".toList, .str "%a b%".toList]]) ∧
    (∀ db : Store, (searchProducts db (.str "x%20y%20z".toList) (.str [])).2.map Query.params
      = [[.str "%x y%20z%".toList, .str "%%".toList]]) := by
  refine ⟨fun db b k h => ?_, fun t p hp hno => ?_, fun u v p hp hno => ?_,
    fun db => ?_, fun db => ?_⟩
  · refine ⟨_, _, ⟨_, percent20Replaced_replace b, rfl⟩, ⟨_, percent20Replaced_replace k, rfl⟩, ?_⟩
    rw [searchProducts_trace db b k h]
    rfl
  · obtain ⟨t', ht, rfl⟩ := hp
    rw [percent20Replaced_unique t t' ht, replace_of_not_infix _ _ _ hno]
  · obtain ⟨t', ht, rfl⟩ := hp
    rw [percent20Replaced_unique _ t' ht, replace_first _ _ u v (by decide) hno]
  · rw [searchProducts_trace db [] "a%20b".toList (by decide)]
    decide
  · rw [searchProducts_trace db "x%20y%20z".toList [] (by decide)]
    decide

theorem search_binds_percent20_patterns_witness :
    (¬ (([] : JSString) = [] ∧ "a%20b".toList = []) ∧
      ∃ pb pk, Spec.IsPatternOf [] pb ∧ Spec.IsPatternOf "a%20b".toList pk ∧
        (searchProducts emptyStore (.str []) (.str "a%20b".toList)).2.map Query.params
          = [[.str pb, .str pk]]) ∧
    (Spec.IsPatternOf "nike".toList "%nike%".toList ∧ ¬ "%20".toList <:+: "nike".toList ∧
      "%nike%".toList = "%".toList ++ "nike".toList ++ "%".toList) ∧
    (Spec.IsPatternOf ("x".toList ++ "%20".toList ++ "y%20z".toList) "%x y%20z%".toList ∧
      ¬ "%20".toList <:+: "x".toList ++ "%2".toList ∧
      "%x y%20z%".toList = "%".toList ++ ("x".toList ++ " ".toList ++ "y%20z".toList)
        ++ "%".toList) :=
  have h1 : Spec.IsPatternOf "nike".toList "%nike%".toList :=
    ⟨"nike".toList, Or.inl ⟨by decide, rfl⟩, rfl⟩
  have h2 : Spec.IsPatternOf ("x".toList ++ "%20".toList ++ "y%20z".toList) "%x y%20z%".toList :=
    ⟨"x y%20z".toList, Or.inr ⟨"x".toList, "y%20z".toList, rfl, by decide, rfl⟩, rfl⟩
  ⟨⟨by decide, search_binds_percent20_patterns.1 emptyStore [] "a%20b".toList (by decide)⟩,
    ⟨h1, by decide, search_binds_percent20_patterns.2.1 _ _ h1 (by decide)⟩,
    ⟨h2, by decide, search_binds_percent20_patterns.2.2.1 _ _ _ h2 (by decide)⟩⟩

/-! ## The upload filter -/

theorem matchAt_iff (alts : List JSString) (s : JSString) :
    matchAt alts s = true ↔ ∃ alt ∈ alts, alt <+: s := by
  simp [matchAt, List.any_eq_true, List.isPrefixOf_iff_prefix]

/-- The matcher run from every position finds exactly the occurrences of an
alternative anywhere in the text. -/
theorem test_iff (alts : List JSString) (s : JSString) :
    test alts s = true ↔ ∃ alt ∈ alts, alt <:+: s := by
  induction s with
  | nil =>
    rw [test, matchAt_iff]
    constructor
    · rintro ⟨a, ha, hp⟩
      exact ⟨a, ha, hp.isInfix⟩
    · rintro ⟨a, ha, hi⟩
      refine ⟨a, ha, ?_⟩
      rw [List.infix_nil] at hi
      rw [hi]
  | cons c cs ih =>
    rw [test, Bool.or_eq_true, matchAt_iff, ih]
    constructor
    · rintro (⟨a, ha, hp⟩ | ⟨a, ha, hi⟩)
      · exact ⟨a, ha, hp.isInfix⟩
      · exact ⟨a, ha, List.infix_cons_iff.2 (Or.inr hi)⟩
    · rintro ⟨a, ha, hi⟩
      rcases List.infix_cons_iff.1 hi with hp | hi
      · exact Or.inl ⟨a, ha, hp⟩
      · exact Or.inr ⟨a, ha, hi⟩

theorem test_filetypes_iff (s : JSString) :
    test filetypes s = true ↔
      ∃ w ∈ ["jpeg".toList, "jpg".toList, "png".toList, "gif".toList], w <:+: s :=
  test_iff filetypes s

theorem scan_startDot_of_no_dot (p : JSString) (n : Nat) (st : path.Scan)
    (hdot : ∀ i, i < n → p[i]? ≠ some '.') (hst : st.startDot = -1) :
    (path.scan p n st).startDot = -1 := by
  induction n generalizing st with
  | zero => simpa [path.scan] using hst
  | succ i ih =>
    have hi : p[i]? ≠ some '.' := hdot i (Nat.lt_succ_self i)
    have hrec : ∀ j, j < i → p[j]? ≠ some '.' := fun j hj => hdot j (Nat.lt_succ_of_lt hj)
    rw [path.scan]
    by_cases hs : p[i]? = some '/'
    · rw [if_pos hs]
      by_cases hm : st.matchedSlash = true
      · simpa [hm] using ih st hrec hst
      · simpa [hm] using hst
    · rw [if_neg hs]
      simp only [hi, if_false, hst, not_true_eq_false]
      apply ih _ hrec
      split <;> simp [hst]

theorem extname_of_no_dot (p : JSString) (h : '.' ∉ p) : path.extname p = [] := by
  have hdot : ∀ i, i < p.length → p[i]? ≠ some '.' := by
    intro i _ hi
    exact h (List.getElem?_mem hi)
  have := scan_startDot_of_no_dot p p.length ⟨-1, 0, -1, true, 0⟩ hdot rfl
  simp [path.extname, this]

theorem checkFileType_accept_iff (lc : LowerCasing) (file : File) :
    checkFileType lc file = ⟨none, some true⟩ ↔
      test filetypes (lc.toLowerCase (path.extname file.originalname)) = true ∧
      test filetypes file.mimetype = true := by
  unfold checkFileType
  cases h1 : test filetypes (lc.toLowerCase (path.extname file.originalname)) <;>
    cases h2 : test filetypes file.mimetype <;> simp

theorem checkFileType_reject_iff (lc : LowerCasing) (file : File) :
    checkFileType lc file = ⟨some "Error: Images Only!", none⟩ ↔
      ¬ (test filetypes (lc.toLowerCase (path.extname file.originalname)) = true ∧
        test filetypes file.mimetype = true) := by
  unfold checkFileType
  cases h1 : test filetypes (lc.toLowerCase (path.extname file.originalname)) <;>
    cases h2 : test filetypes file.mimetype <;> simp

/-! ### `path.extname` on a name that ends in `c.ext` -/

theorem scan_ext (p : JSString) (m k : Nat) (st : path.Scan)
    (hst : st.startDot = -1) (hend : st.end_ ≠ -1)
    (h : ∀ i, m ≤ i → i < m + k → p[i]? ≠ some '/' ∧ p[i]? ≠ some '.') :
    path.scan p (m + k) st = path.scan p m st := by
  induction k with
  | zero => rfl
  | succ k ih =>
    have hi := h (m + k) (by omega) (by omega)
    have hrec : ∀ i, m ≤ i → i < m + k → p[i]? ≠ some '/' ∧ p[i]? ≠ some '.' :=
      fun i h1 h2 => h i h1 (by omega)
    rw [← Nat.add_assoc, path.scan]
    simp only [hi.1, hi.2, if_false, hend, hst, ne_eq, not_true_eq_false]
    exact ih hrec

theorem scan_char_first (p : JSString) (i : Nat) (st : path.Scan)
    (h1 : p[i]? ≠ some '/') (h2 : p[i]? ≠ some '.') (hsd : st.startDot = -1)
    (hend : st.end_ = -1) :
    path.scan p (i + 1) st =
      path.scan p i ⟨st.startDot, st.startPart, (i : Int) + 1, false, st.preDotState⟩ := by
  rw [path.scan]
  simp [h1, h2, hsd, hend]

theorem scan_dot_first (p : JSString) (i : Nat) (st : path.Scan)
    (h : p[i]? = some '.') (hsd : st.startDot = -1) (hend : st.end_ = -1) :
    path.scan p (i + 1) st =
      path.scan p i ⟨(i : Int), st.startPart, (i : Int) + 1, false, st.preDotState⟩ := by
  rw [path.scan]
  simp [h, hsd, hend]

theorem scan_dot_after (p : JSString) (i : Nat) (st : path.Scan)
    (h : p[i]? = some '.') (hsd : st.startDot = -1) (hend : st.end_ ≠ -1) :
    path.scan p (i + 1) st =
      path.scan p i ⟨(i : Int), st.startPart, st.end_, st.matchedSlash, st.preDotState⟩ := by
  rw [path.scan]
  simp [h, hsd, hend]

theorem scan_char_after_dot (p : JSString) (i : Nat) (st : path.Scan)
    (h1 : p[i]? ≠ some '/') (h2 : p[i]? ≠ some '.') (hsd : st.startDot ≠ -1)
    (hend : st.end_ ≠ -1) :
    path.scan p (i + 1) st =
      path.scan p i ⟨st.startDot, st.startPart, st.end_, st.matchedSlash, -1⟩ := by
  rw [path.scan]
  simp [h1, h2, hsd, hend]

theorem scan_base (p : JSString) (L len n : Nat) (st : path.Scan) (hn : n ≤ L)
    (h1 : st.startDot = L + 1) (h2 : st.end_ = len) (h3 : st.matchedSlash = false)
    (h4 : st.startPart = 0) (h5 : st.preDotState = -1 ∨ st.preDotState = 1)
    (h6 : n = L → st.preDotState = -1) :
    (path.scan p n st).startDot = L + 1 ∧ (path.scan p n st).end_ = len ∧
      ((path.scan p n st).preDotState = -1 ∨
        ((path.scan p n st).preDotState = 1 ∧
          (path.scan p n st).startDot ≠ (path.scan p n st).startPart + 1)) := by
  induction n generalizing st with
  | zero =>
    refine ⟨h1, h2, ?_⟩
    rcases h5 with h5 | h5
    · exact Or.inl h5
    · refine Or.inr ⟨h5, ?_⟩
      show st.startDot ≠ st.startPart + 1
      rw [h1, h4]
      intro hL
      have : (0 : Nat) = L := by omega
      have := h6 this
      omega
  | succ i ih =>
    have hend : st.end_ ≠ -1 := by omega
    have hsd : st.startDot ≠ -1 := by omega
    rw [path.scan]
    by_cases hs : p[i]? = some '/'
    · simp only [hs, if_true, h3, Bool.not_false]
      refine ⟨h1, h2, ?_⟩
      rcases h5 with h5 | h5
      · exact Or.inl h5
      · refine Or.inr ⟨h5, ?_⟩
        show st.startDot ≠ ((i + 1 : Nat) : Int) + 1
        rw [h1]
        intro hL
        have : i + 1 = L := by omega
        have := h6 this
        omega
    · simp only [hs, if_false, hend, hsd, ne_eq, not_false_eq_true, if_true]
      by_cases hd : p[i]? = some '.'
      · simp only [hd, if_true]
        by_cases hp : st.preDotState = 1
        · simp only [hp, not_true_eq_false, if_false]
          exact ih st (by omega) h1 h2 h3 h4 h5 (by omega)
        · simp only [hp, not_false_eq_true, if_true]
          exact ih _ (by omega) h1 h2 h3 h4 (Or.inr rfl) (by omega)
      · simp only [hd, if_false]
        exact ih _ (by omega) h1 h2 h3 h4 (Or.inl rfl) (by omega)

/-- The extension of a name that ends in a character other than `/` and `.`,
a dot, and a run of characters without `.` and `/`, is that dot and that
run, whatever comes before. -/
theorem extname_stem_dot_ext (base ext : JSString) (c : Char) (hc1 : c ≠ '/') (hc2 : c ≠ '.')
    (h1 : '.' ∉ ext) (h2 : '/' ∉ ext) :
    path.extname (base ++ c :: '.' :: ext) = '.' :: ext := by
  have hlen : (base ++ c :: '.' :: ext).length = base.length + 2 + ext.length := by
    simp only [List.length_append, List.length_cons]
    omega
  have hpL : (base ++ c :: '.' :: ext)[base.length]? = some c := by
    rw [List.getElem?_append_right (Nat.le_refl _)]
    simp
  have hpL1 : (base ++ c :: '.' :: ext)[base.length + 1]? = some '.' := by
    rw [List.getElem?_append_right (by omega)]
    simp
  have hpext : ∀ i, base.length + 2 ≤ i → i < base.length + 2 + ext.length →
      (base ++ c :: '.' :: ext)[i]? ≠ some '/' ∧ (base ++ c :: '.' :: ext)[i]? ≠ some '.' := by
    intro i hi1 hi2
    rw [List.getElem?_append_right (by omega)]
    obtain ⟨j, rfl⟩ : ∃ j, i = base.length + 2 + j := ⟨i - (base.length + 2), by omega⟩
    have : base.length + 2 + j - base.length = j + 2 := by omega
    rw [this]
    simp only [List.getElem?_cons_succ]
    constructor
    · intro hj
      exact h2 (List.getElem?_mem hj)
    · intro hj
      exact h1 (List.getElem?_mem hj)
  have hstep : path.scan (base ++ c :: '.' :: ext) (base.length + 2 + ext.length)
      ⟨-1, 0, -1, true, 0⟩ =
      path.scan (base ++ c :: '.' :: ext) base.length
        ⟨(base.length : Int) + 1, 0, (base.length + 2 + ext.length : Nat), false, -1⟩ := by
    have hcs : (base ++ c :: '.' :: ext)[base.length]? ≠ some '/' := by
      rw [hpL]; simpa using hc1
    have hcd : (base ++ c :: '.' :: ext)[base.length]? ≠ some '.' := by
      rw [hpL]; simpa using hc2
    cases hext : ext.length with
    | zero =>
      rw [Nat.add_zero, scan_dot_first _ _ _ hpL1 rfl rfl,
        scan_char_after_dot _ _ _ hcs hcd (by show ((base.length + 1 : Nat) : Int) ≠ -1; omega)
          (by show ((base.length + 1 : Nat) : Int) + 1 ≠ -1; omega)]
      congr 1
    | succ k =>
      have hk := hpext (base.length + 2 + k) (by omega) (by omega)
      rw [← Nat.add_assoc, scan_char_first _ _ _ hk.1 hk.2 rfl rfl,
        scan_ext _ (base.length + 2) k _ rfl
          (by show ((base.length + 2 + k : Nat) : Int) + 1 ≠ -1; omega)
          (fun i hi1 hi2 => hpext i hi1 (by omega)),
        scan_dot_after _ _ _ hpL1 rfl
          (by show ((base.length + 2 + k : Nat) : Int) + 1 ≠ -1; omega),
        scan_char_after_dot _ _ _ hcs hcd (by show ((base.length + 1 : Nat) : Int) ≠ -1; omega)
          (by show ((base.length + 2 + k : Nat) : Int) + 1 ≠ -1; omega)]
      congr 1
  obtain ⟨hsd, hen, hpre⟩ := scan_base (base ++ c :: '.' :: ext) base.length
    (base.length + 2 + ext.length) base.length
    ⟨(base.length : Int) + 1, 0, (base.length + 2 + ext.length : Nat), false, -1⟩
    (Nat.le_refl _) rfl rfl rfl rfl (Or.inl rfl) (fun _ => rfl)
  rw [path.extname, hlen, hstep]
  have hc : ¬ ((path.scan (base ++ c :: '.' :: ext) base.length
        ⟨(base.length : Int) + 1, 0, (base.length + 2 + ext.length : Nat), false, -1⟩).startDot = -1 ∨
      (path.scan (base ++ c :: '.' :: ext) base.length
        ⟨(base.length : Int) + 1, 0, (base.length + 2 + ext.length : Nat), false, -1⟩).end_ = -1 ∨
      (path.scan (base ++ c :: '.' :: ext) base.length
        ⟨(base.length : Int) + 1, 0, (base.length + 2 + ext.length : Nat), false, -1⟩).preDotState = 0 ∨
      ((path.scan (base ++ c :: '.' :: ext) base.length
        ⟨(base.length : Int) + 1, 0, (base.length + 2 + ext.length : Nat), false, -1⟩).preDotState = 1 ∧
       (path.scan (base ++ c :: '.' :: ext) base.length
        ⟨(base.length : Int) + 1, 0, (base.length + 2 + ext.length : Nat), false, -1⟩).startDot =
         (path.scan (base ++ c :: '.' :: ext) base.length
        ⟨(base.length : Int) + 1, 0, (base.length + 2 + ext.length : Nat), false, -1⟩).end_ - 1 ∧
       (path.scan (base ++ c :: '.' :: ext) base.length
        ⟨(base.length : Int) + 1, 0, (base.length + 2 + ext.length : Nat), false, -1⟩).startDot =
         (path.scan (base ++ c :: '.' :: ext) base.length
        ⟨(base.length : Int) + 1, 0, (base.length + 2 + ext.length : Nat), false, -1⟩).startPart + 1)) := by
    rintro (h | h | h | ⟨h, _, h'⟩)
    · omega
    · omega
    · rcases hpre with hp | ⟨hp, _⟩ <;> omega
    · rcases hpre with hp | ⟨_, hp⟩
      · omega
      · exact hp h'
  rw [if_neg hc]
  simp only [hsd, hen, path.slice]
  have e1 : ((base.length : Int) + 1).toNat = base.length + 1 := by omega
  have e2 : ((base.length + 2 + ext.length : Nat) : Int).toNat = base.length + 2 + ext.length := by
    omega
  rw [e1, e2]
  have : base.length + 1 = (base ++ [c]).length := by simp
  rw [show base ++ c :: '.' :: ext = (base ++ [c]) ++ '.' :: ext by simp, this,
    List.drop_left]
  apply List.take_of_length_le
  simp only [List.length_append, List.length_cons, List.length_nil]
  omega

/-! ### The filter -/

theorem test_lower_ascii (lc : LowerCasing) (s : JSString) (h : ∀ c ∈ s, c.toNat < 128) :
    test filetypes (lc.toLowerCase s) = test filetypes (s.map Char.toLower) := by
  rw [lc.ascii s h]

/-- C4 (evaluation at the failing input): a file named `notes.pngx`, whose
extension `.pngx` is none of `.jpeg`, `.jpg`, `.png`, `.gif`, declared with the
content type `text/x-gif`, which is not an image type, is accepted by the
filter. -/
theorem checkFileType_accepts_non_image (lc : LowerCasing) (fieldname : JSString) :
    path.extname "notes.pngx".toList = ".pngx".toList ∧
    ".pngx".toList ∉ [".jpeg".toList, ".jpg".toList, ".png".toList, ".gif".toList] ∧
    checkFileType lc ⟨fieldname, "notes.pngx".toList, "text/x-gif".toList⟩
      = ⟨none, some true⟩ := by
  refine ⟨by decide, by decide, ?_⟩
  rw [checkFileType_accept_iff]
  have he : path.extname "notes.pngx".toList = ".pngx".toList := by decide
  refine ⟨?_, (by decide : test filetypes "text/x-gif".toList = true)⟩
  show test filetypes (lc.toLowerCase (path.extname "notes.pngx".toList)) = true
  rw [he, test_lower_ascii lc _ (by decide)]
  decide

/-- C10: the filter accepts exactly when the lower-cased `path.extname` of the
original name contains one of `jpeg`, `jpg`, `png`, `gif` and the content type,
as declared and not lower-cased, contains one of them; otherwise it reports
`Error: Images Only!`.  The extension is what follows the last dot of the
name.  So `a.phpjpg` declared `text/x-gif` is accepted, `PHOTO.JPEG` declared
`image/jpeg` is accepted, `a.png` declared `IMAGE/PNG` is rejected, and a file
without extension is rejected. -/
theorem checkFileType_substring_containment (lc : LowerCasing) :
    (∀ file : File, checkFileType lc file = ⟨none, some true⟩ ↔
      (∃ w ∈ ["jpeg".toList, "jpg".toList, "png".toList, "gif".toList],
        w <:+: lc.toLowerCase (path.extname file.originalname)) ∧
      (∃ w ∈ ["jpeg".toList, "jpg".toList, "png".toList, "gif".toList],
        w <:+: file.mimetype)) ∧
    (∀ file : File, checkFileType lc file ≠ ⟨none, some true⟩ →
      checkFileType lc file = ⟨some "Error: Images Only!", none⟩) ∧
    (∀ file : File, (∀ c ∈ path.extname file.originalname, c.toNat < 128) →
      (checkFileType lc file = ⟨none, some true⟩ ↔
        (∃ w ∈ ["jpeg".toList, "jpg".toList, "png".toList, "gif".toList],
          w <:+: (path.extname file.originalname).map Char.toLower) ∧
        (∃ w ∈ ["jpeg".toList, "jpg".toList, "png".toList, "gif".toList],
          w <:+: file.mimetype))) ∧
    (∀ (base ext : JSString) (c : Char), c ≠ '/' → c ≠ '.' → '.' ∉ ext → '/' ∉ ext →
      path.extname (base ++ c :: '.' :: ext) = '.' :: ext) ∧
    (∀ fieldname : JSString,
      path.extname "a.phpjpg".toList = ".phpjpg".toList ∧
      checkFileType lc ⟨fieldname, "a.phpjpg".toList, "text/x-gif".toList⟩
        = ⟨none, some true⟩) ∧
    (∀ fieldname : JSString,
      path.extname "PHOTO.JPEG".toList = ".JPEG".toList ∧
      checkFileType lc ⟨fieldname, "PHOTO.JPEG".toList, "image/jpeg".toList⟩
        = ⟨none, some true⟩) ∧
    (∀ fieldname : JSString,
      path.extname "a.png".toList = ".png".toList ∧
      checkFileType lc ⟨fieldname, "a.png".toList, "IMAGE/PNG".toList⟩
        = ⟨some "Error: Images Only!", none⟩) ∧
    (∀ file : File, (path.extname file.originalname = [] ∨ '.' ∉ file.originalname) →
      checkFileType lc file = ⟨some "Error: Images Only!", none⟩) := by
  refine ⟨fun file => ?_, fun file h => ?_, fun file hascii => ?_,
    fun base ext c h1 h2 h3 h4 => extname_stem_dot_ext base ext c h1 h2 h3 h4,
    fun fieldname => ⟨by decide, ?_⟩, fun fieldname => ⟨by decide, ?_⟩,
    fun fieldname => ⟨by decide, ?_⟩, fun file h => ?_⟩
  · rw [checkFileType_accept_iff, test_filetypes_iff, test_filetypes_iff]
  · rw [checkFileType_reject_iff]
    exact fun hc => h ((checkFileType_accept_iff lc file).2 hc)
  · rw [checkFileType_accept_iff, test_lower_ascii lc _ hascii, test_filetypes_iff,
      test_filetypes_iff]
  · rw [checkFileType_accept_iff]
    have he : path.extname "a.phpjpg".toList = ".phpjpg".toList := by decide
    refine ⟨?_, (by decide : test filetypes "text/x-gif".toList = true)⟩
    show test filetypes (lc.toLowerCase (path.extname "a.phpjpg".toList)) = true
    rw [he, test_lower_ascii lc _ (by decide)]
    decide
  · rw [checkFileType_accept_iff]
    have he : path.extname "PHOTO.JPEG".toList = ".JPEG".toList := by decide
    refine ⟨?_, (by decide : test filetypes "image/jpeg".toList = true)⟩
    show test filetypes (lc.toLowerCase (path.extname "PHOTO.JPEG".toList)) = true
    rw [he, test_lower_ascii lc _ (by decide)]
    decide
  · rw [checkFileType_reject_iff]
    rintro ⟨_, hm⟩
    exact absurd hm (by decide : ¬ test filetypes "IMAGE/PNG".toList = true)
  · have hext : path.extname file.originalname = [] := by
      rcases h with h | h
      · exact h
      · exact extname_of_no_dot _ h
    rw [checkFileType_reject_iff, hext, test_lower_ascii lc [] (by simp)]
    rintro ⟨he, _⟩
    exact absurd he (by decide)

theorem checkFileType_substring_containment_witness :
    (checkFileType asciiLowerCasing ⟨"myImage".toList, "README".toList, "image/png".toList⟩
      = ⟨some "Error: Images Only!", none⟩) ∧
    (path.extname ("archive.tar".toList ++ 'x' :: '.' :: "GZ".toList) = '.' :: "GZ".toList) ∧
    ((∀ c ∈ path.extname "Holiday.Png".toList, c.toNat < 128) ∧
      (checkFileType asciiLowerCasing ⟨"myImage".toList, "Holiday.Png".toList,
          "image/png".toList⟩ = ⟨none, some true⟩ ↔
        (∃ w ∈ ["jpeg".toList, "jpg".toList, "png".toList, "gif".toList],
          w <:+: (path.extname "Holiday.Png".toList).map Char.toLower) ∧
        (∃ w ∈ ["jpeg".toList, "jpg".toList, "png".toList, "gif".toList],
          w <:+: "image/png".toList))) :=
  ⟨(checkFileType_substring_containment asciiLowerCasing).2.2.2.2.2.2.2
      ⟨"myImage".toList, "README".toList, "image/png".toList⟩ (Or.inr (by decide)),
    (checkFileType_substring_containment asciiLowerCasing).2.2.2.1 "archive.tar".toList
      "GZ".toList 'x' (by decide) (by decide) (by decide) (by decide),
    by decide,
    (checkFileType_substring_containment asciiLowerCasing).2.2.1
      ⟨"myImage".toList, "Holiday.Png".toList, "image/png".toList⟩ (by decide)⟩

/-! ## The validators -/

theorem isDigit_iff (c : Char) : c.isDigit = true ↔ Spec.IsDigit c := by
  simp only [Char.isDigit, Spec.IsDigit, Bool.and_eq_true, decide_eq_true_eq, Char.le_def]
  constructor
  · rintro ⟨h1, h2⟩
    exact ⟨h1, h2⟩
  · rintro ⟨h1, h2⟩
    exact ⟨h1, h2⟩

theorem digitsValue_append (ds : JSString) (c : Char) :
    digitsValue (ds ++ [c]) = 10 * digitsValue ds + (c.toNat - '0'.toNat) := by
  simp [digitsValue, List.foldl_append]

theorem digitsValue_eq_ofDigits (ds : JSString) :
    Nat.ofDigits 10 (ds.reverse.map (fun c => c.toNat - '0'.toNat)) = digitsValue ds := by
  induction ds using List.reverseRecOn with
  | nil => rfl
  | append_singleton ds c ih =>
    rw [digitsValue_append, List.reverse_append, List.reverse_singleton, List.singleton_append,
      List.map_cons, Nat.ofDigits_cons, ih]
    simp [Nat.add_comm]

theorem digitChar_spec (k : Nat) (hk : k < 10) :
    (Nat.digitChar k).isDigit = true ∧ (Nat.digitChar k).toNat - '0'.toNat = k := by
  interval_cases k <;> exact ⟨by decide, by decide⟩

theorem toDigitsCore_spec (fuel n : Nat) (ds : List Char) (h : n < fuel) :
    ∃ pre, Nat.toDigitsCore 10 fuel n ds = pre ++ ds ∧ pre ≠ [] ∧
      pre.all Char.isDigit = true ∧ digitsValue pre = n := by
  induction fuel generalizing n ds with
  | zero => omega
  | succ fuel ih =>
    obtain ⟨hd, hv⟩ := digitChar_spec (n % 10) (Nat.mod_lt _ (by decide))
    rw [Nat.toDigitsCore]
    by_cases h0 : n / 10 = 0
    · refine ⟨[Nat.digitChar (n % 10)], by simp [h0], by simp, by simp [hd], ?_⟩
      have := digitsValue_append [] (Nat.digitChar (n % 10))
      simp only [List.nil_append] at this
      rw [this, hv]
      simp only [digitsValue, List.foldl_nil]
      omega
    · obtain ⟨pre, hpre, _, hall, hval⟩ :=
        ih (n / 10) (Nat.digitChar (n % 10) :: ds) (by omega)
      refine ⟨pre ++ [Nat.digitChar (n % 10)], by simp [h0, hpre], by simp,
        by simp [List.all_append, hall, hd], ?_⟩
      rw [digitsValue_append, hval, hv]
      omega

theorem toDigits_spec (n : Nat) :
    Nat.toDigits 10 n ≠ [] ∧ (Nat.toDigits 10 n).all Char.isDigit = true ∧
      digitsValue (Nat.toDigits 10 n) = n := by
  obtain ⟨pre, hpre, hne, hall, hval⟩ := toDigitsCore_spec (n + 1) n [] (Nat.lt_succ_self n)
  rw [List.append_nil] at hpre
  rw [Nat.toDigits, hpre]
  exact ⟨hne, hall, hval⟩

theorem digit_head_not_sign (ds : JSString) (hne : ds ≠ []) (hall : ds.all Char.isDigit = true) :
    ds.head? ≠ some '-' ∧ ds.head? ≠ some '+' := by
  cases ds with
  | nil => exact absurd rfl hne
  | cons c cs =>
    simp only [List.all_cons, Bool.and_eq_true] at hall
    simp only [List.head?_cons, ne_eq, Option.some.injEq]
    constructor
    · rintro rfl
      exact absurd hall.1 (by decide)
    · rintro rfl
      exact absurd hall.1 (by decide)

theorem afterSign_digits (ds : JSString) (hne : ds ≠ []) (hall : ds.all Char.isDigit = true) :
    afterSign ds = ds := by
  obtain ⟨h1, h2⟩ := digit_head_not_sign ds hne hall
  simp [afterSign, h1, h2]

theorem isDecimal_iff (ds : JSString) (m : Nat) :
    Spec.IsDecimal ds m ↔ ds ≠ [] ∧ ds.all Char.isDigit = true ∧ digitsValue ds = m := by
  simp only [Spec.IsDecimal, digitsValue_eq_ofDigits, List.all_eq_true, isDigit_iff]

/-- The regular expression and the conversion to a number, against the
specification's reading of a text as an integer. -/
theorem writes_iff (s : JSString) (n : Int) :
    Spec.Writes s n ↔ intLeadingZeroes s = true ∧ toNumber s = n := by
  constructor
  · rintro ⟨ds, m, hdec, hcase⟩
    obtain ⟨hne, hall, hval⟩ := (isDecimal_iff ds m).1 hdec
    obtain ⟨h1, h2⟩ := digit_head_not_sign ds hne hall
    have hemp : ds.isEmpty = false := by
      cases ds with
      | nil => exact absurd rfl hne
      | cons c cs => rfl
    rcases hcase with ⟨rfl, rfl⟩ | ⟨rfl, rfl⟩ | ⟨rfl, rfl⟩
    · simp [intLeadingZeroes, toNumber, afterSign_digits s hne hall, hemp, h1, hval]
      simpa using hall
    · simp [intLeadingZeroes, toNumber, afterSign, hemp, hval]
      simpa using hall
    · simp [intLeadingZeroes, toNumber, afterSign, hemp, hval]
      simpa using hall
  · rintro ⟨hre, hnum⟩
    simp only [intLeadingZeroes, Bool.and_eq_true, Bool.not_eq_true'] at hre
    obtain ⟨hemp, hall⟩ := hre
    have hne : afterSign s ≠ [] := by
      intro h
      rw [h] at hemp
      exact absurd hemp (by decide)
    refine ⟨afterSign s, digitsValue (afterSign s), (isDecimal_iff _ _).2 ⟨hne, hall, rfl⟩, ?_⟩
    by_cases hm : s.head? = some '-'
    · right; right
      cases s with
      | nil => simp at hm
      | cons c cs =>
        simp only [List.head?_cons, Option.some.injEq] at hm
        subst hm
        simp [afterSign, toNumber] at hnum ⊢
        exact hnum.symm
    · by_cases hp : s.head? = some '+'
      · right; left
        cases s with
        | nil => simp at hp
        | cons c cs =>
          simp only [List.head?_cons, Option.some.injEq] at hp
          subst hp
          simp [afterSign, toNumber] at hnum ⊢
          exact hnum.symm
      · left
        have : afterSign s = s := by simp [afterSign, hm, hp]
        simp only [toNumber, hm, if_false] at hnum
        exact ⟨this.symm, hnum.symm⟩

/-! ### `String(n)` -/

theorem numberToString_of_small (m : Int) (hs : m.natAbs < 2 ^ 53) :
    numberToString m = (if m < 0 then ['-'] else []) ++ Nat.toDigits 10 m.natAbs := by
  unfold numberToString
  rw [if_pos hs]

theorem numberToString_of_large (m : Int) (hs : ¬ m.natAbs < 2 ^ 53) :
    numberToString m = (if m < 0 then ['-'] else []) ++ largeToString m.natAbs := by
  unfold numberToString
  rw [if_neg hs]

theorem numberToString_small (m : Int) (hs : m.natAbs < 2 ^ 53) :
    intLeadingZeroes (numberToString m) = true ∧ toNumber (numberToString m) = m := by
  rw [← writes_iff, numberToString_of_small m hs]
  obtain ⟨hne, hall, hval⟩ := toDigits_spec m.natAbs
  refine ⟨Nat.toDigits 10 m.natAbs, m.natAbs, (isDecimal_iff _ _).2 ⟨hne, hall, hval⟩, ?_⟩
  by_cases h : m < 0
  · right; right
    refine ⟨by simp [h], ?_⟩
    omega
  · left
    refine ⟨by simp [h], ?_⟩
    omega

theorem closer_eq (v : Nat) (a b : Nat × Nat) : closer v a b = a ∨ closer v a b = b := by
  unfold closer
  split
  · exact Or.inr rfl
  · split
    · exact Or.inr rfl
    · exact Or.inl rfl

theorem foldl_closer_mem (v : Nat) (cs : List (Nat × Nat)) (c : Nat × Nat) :
    cs.foldl (closer v) c ∈ c :: cs := by
  induction cs generalizing c with
  | nil => simp
  | cons d ds ih =>
    rw [List.foldl_cons]
    have h := ih (closer v c d)
    rcases closer_eq v c d with hc | hc
    · rw [hc] at h ⊢
      rcases List.mem_cons.1 h with h | h
      · rw [h]; exact List.mem_cons_self _ _
      · exact List.mem_cons_of_mem _ (List.mem_cons_of_mem _ h)
    · rw [hc] at h ⊢
      exact List.mem_cons_of_mem _ h

theorem closest_mem (v : Nat) (l : List (Nat × Nat)) (c : Nat × Nat)
    (h : closest v l = some c) : c ∈ l := by
  cases l with
  | nil => simp [closest] at h
  | cons d ds =>
    simp only [closest, Option.some.injEq] at h
    rw [← h]
    exact foldl_closer_mem v ds d

/-- What `shortest` returns reads back as `v`, or is `v` itself. -/
theorem shortest_spec (v : Nat) :
    shortest v = (v, 0) ∨ ∃ k, readsBack v k (shortest v) = true := by
  unfold shortest
  cases h : (List.range (Nat.toDigits 10 v).length).findSome?
      (fun i => closest v ((candidates v (i + 1)).filter (readsBack v (i + 1)))) with
  | none => exact Or.inl rfl
  | some c =>
    obtain ⟨i, _, hi⟩ := List.exists_of_findSome?_eq_some h
    have hmem := closest_mem v _ c hi
    exact Or.inr ⟨i + 1, (List.mem_filter.1 hmem).2⟩

theorem shortest_value (v : Nat) (hv : 2 ^ 53 ≤ v) :
    2 ^ 53 ≤ (shortest v).1 * 10 ^ (shortest v).2 := by
  rcases shortest_spec v with h | ⟨k, h⟩
  · rw [h]
    simpa using hv
  · simp only [readsBack, Bool.and_eq_true, decide_eq_true_eq] at h
    by_contra hlt
    have hd : toDouble ((shortest v).1 * 10 ^ (shortest v).2)
        = (shortest v).1 * 10 ^ (shortest v).2 := by
      unfold toDouble
      rw [if_pos (by omega)]
    omega

theorem digitsValue_append_zeros (ds : JSString) (e : Nat) :
    digitsValue (ds ++ List.replicate e '0') = digitsValue ds * 10 ^ e := by
  induction e with
  | zero => simp
  | succ e ih =>
    rw [List.replicate_succ', ← List.append_assoc, digitsValue_append, ih]
    simp only [Nat.sub_self, Nat.add_zero]
    rw [Nat.pow_succ]
    ring

theorem mantissa_cons (d : Char) (ds : JSString) :
    ∃ rest, mantissa (d :: ds) = d :: rest := by
  cases ds with
  | nil => exact ⟨[], rfl⟩
  | cons c cs => exact ⟨'.' :: c :: cs, rfl⟩

/-- The text of a number of at least `2 ^ 53`: a run of digits whose value is
at least `2 ^ 53`, or a text with an `e` after its first character. -/
theorem largeToString_spec (v : Nat) (hv : 2 ^ 53 ≤ v) :
    (largeToString v ≠ [] ∧ (largeToString v).all Char.isDigit = true ∧
      2 ^ 53 ≤ digitsValue (largeToString v)) ∨
    (∃ d rest, largeToString v = d :: rest ∧ 'e' ∈ rest) := by
  obtain ⟨hne, hall, hval⟩ := toDigits_spec (shortest v).1
  unfold largeToString
  by_cases hle : (Nat.toDigits 10 (shortest v).1).length + (shortest v).2 ≤ 21
  · left
    simp only [hle, if_true]
    refine ⟨by simp [hne], ?_, ?_⟩
    · rw [List.all_append, hall]
      simp
    · rw [digitsValue_append_zeros, hval]
      exact shortest_value v hv
  · right
    simp only [hle, if_false]
    cases hd : Nat.toDigits 10 (shortest v).1 with
    | nil => exact absurd hd hne
    | cons d ds =>
      obtain ⟨rest, hrest⟩ := mantissa_cons d ds
      rw [hrest]
      exact ⟨d, _, rfl, by simp⟩

theorem intLeadingZeroes_of_mem_tail (t : JSString) (c : Char) (hc : c.isDigit = false)
    (h : c ∈ t.tail) : intLeadingZeroes t = false := by
  have hmem : c ∈ afterSign t := by
    unfold afterSign
    split
    · exact h
    · exact List.mem_of_mem_tail h
  have : (afterSign t).all Char.isDigit = false :=
    List.all_eq_false.2 ⟨c, hmem, by simp [hc]⟩
  simp [intLeadingZeroes, this]

theorem numberToString_ne_nil (m : Int) : numberToString m ≠ [] := by
  by_cases hs : m.natAbs < 2 ^ 53
  · rw [numberToString_of_small m hs]
    simp [(toDigits_spec m.natAbs).1]
  · rw [numberToString_of_large m hs]
    rcases largeToString_spec m.natAbs (by omega) with ⟨hne, _, _⟩ | ⟨d, rest, hd, _⟩
    · simp [hne]
    · simp [hd]

/-- A number passes `isInt` with the bounds 0 and 5 exactly when its value is
from 0 to 5. -/
theorem isInt_rating_num (m : Int) :
    isInt (numberToString m) (some 0) (some 5) = true ↔ 0 ≤ m ∧ m ≤ 5 := by
  by_cases hs : m.natAbs < 2 ^ 53
  · obtain ⟨hre, hnum⟩ := numberToString_small m hs
    simp [isInt, hre, hnum]
  · have hrhs : ¬ (0 ≤ m ∧ m ≤ 5) := by omega
    simp only [hrhs, iff_false, Bool.not_eq_true]
    rcases largeToString_spec m.natAbs (by omega) with ⟨hne, hall, hval⟩ | ⟨d, rest, hd, he⟩
    · have hw : Spec.Writes (numberToString m)
          (if m < 0 then -(digitsValue (largeToString m.natAbs) : Int)
            else digitsValue (largeToString m.natAbs)) := by
        rw [numberToString_of_large m hs]
        refine ⟨largeToString m.natAbs, digitsValue (largeToString m.natAbs),
          (isDecimal_iff _ _).2 ⟨hne, hall, rfl⟩, ?_⟩
        by_cases h : m < 0
        · right; right
          simp [h]
        · left
          simp [h]
      obtain ⟨hre, hnum⟩ := (writes_iff _ _).1 hw
      simp only [isInt, hre, hnum, Bool.true_and, Bool.and_eq_false_iff, decide_eq_false_iff_not]
      by_cases h : m < 0
      · left
        simp only [h, if_true]
        omega
      · right
        simp only [h, if_false]
        omega
    · have hre : intLeadingZeroes (numberToString m) = false := by
        apply intLeadingZeroes_of_mem_tail _ 'e' (by decide)
        rw [numberToString_of_large m hs, hd]
        by_cases h : m < 0
        · simp [h, he]
        · simp [h, he]
      simp [isInt, hre]

theorem ratingValid_iff_isInt (v : JSValue) :
    Spec.RatingValid v ↔ isInt (fieldToString v) (some 0) (some 5) = true := by
  cases v with
  | undefined => simp [Spec.RatingValid, Spec.IsInteger, fieldToString, isInt, intLeadingZeroes, afterSign]
  | null => simp [Spec.RatingValid, Spec.IsInteger, fieldToString, isInt, intLeadingZeroes, afterSign]
  | bool b =>
    have : isInt (fieldToString (.bool b)) (some 0) (some 5) = false := by
      cases b <;> decide
    simp [Spec.RatingValid, Spec.IsInteger, this]
  | num m =>
    rw [fieldToString, isInt_rating_num]
    simp [Spec.RatingValid, Spec.IsInteger]
  | str s =>
    simp only [Spec.RatingValid, Spec.IsInteger, fieldToString, writes_iff, isInt,
      Bool.and_eq_true, decide_eq_true_eq]
    constructor
    · rintro ⟨n, ⟨hre, rfl⟩, h0, h5⟩
      exact ⟨⟨hre, h0⟩, h5⟩
    · rintro ⟨⟨hre, h0⟩, h5⟩
      exact ⟨_, ⟨hre, rfl⟩, h0, h5⟩

theorem textIsInteger_iff_isInt (v : JSValue) :
    Spec.TextIsInteger v ↔ isInt (fieldToString v) none none = true := by
  simp only [Spec.TextIsInteger, writes_iff, isInt, Bool.and_true]
  constructor
  · rintro ⟨n, hre, _⟩
    exact hre
  · intro hre
    exact ⟨_, hre, rfl⟩

theorem textIsInteger_str (s : JSString) :
    Spec.TextIsInteger (.str s) ↔ Spec.ParsesAsInteger (.str s) := Iff.rfl

theorem textIsInteger_num_small (m : Int) (hs : m.natAbs < 2 ^ 53) :
    Spec.TextIsInteger (.num m) := by
  rw [textIsInteger_iff_isInt]
  simp [isInt, fieldToString, (numberToString_small m hs).1]

theorem isEmpty_iff (v : JSValue) : isEmpty (fieldToString v) = true ↔ ¬ Spec.NonEmpty v := by
  cases v with
  | undefined => simp [Spec.NonEmpty, fieldToString, isEmpty]
  | null => simp [Spec.NonEmpty, fieldToString, isEmpty]
  | bool b => cases b <;> simp [Spec.NonEmpty, fieldToString, isEmpty]
  | num m =>
    simp only [Spec.NonEmpty, fieldToString, isEmpty, not_true_eq_false, iff_false,
      beq_iff_eq, List.length_eq_zero]
    exact numberToString_ne_nil m
  | str s => simp [Spec.NonEmpty, fieldToString, isEmpty]

/-! ## The validation chains -/

theorem notEmptyChain_of_nonEmpty (param msg : String) (v : JSValue) (h : Spec.NonEmpty v) :
    notEmptyChain param msg v = [] := by
  have : isEmpty (fieldToString v) = false := by
    cases hb : isEmpty (fieldToString v)
    · rfl
    · exact absurd h ((isEmpty_iff v).1 hb)
  simp [notEmptyChain, this]

theorem notEmptyChain_of_empty (param msg : String) (v : JSValue) (h : ¬ Spec.NonEmpty v) :
    notEmptyChain param msg v = [⟨v, msg, param, "body"⟩] := by
  simp [notEmptyChain, (isEmpty_iff v).2 h]

theorem mem_notEmptyChain (param msg : String) (v : JSValue) (e : ValidationError) :
    e ∈ notEmptyChain param msg v ↔ e = ⟨v, msg, param, "body"⟩ ∧ ¬ Spec.NonEmpty v := by
  by_cases h : Spec.NonEmpty v
  · simp [notEmptyChain_of_nonEmpty _ _ _ h, h]
  · simp [notEmptyChain_of_empty _ _ _ h, h]

theorem mem_ratingChain (msg : String) (v : JSValue) (e : ValidationError) :
    e ∈ isIntChain "rating" msg (some 0) (some 5) v ↔
      e = ⟨v, msg, "rating", "body"⟩ ∧ ¬ Spec.RatingValid v := by
  rw [ratingValid_iff_isInt]
  cases h : isInt (fieldToString v) (some 0) (some 5) <;> simp [isIntChain, h]

theorem mem_categoryChain (msg : String) (v : JSValue) (e : ValidationError) :
    e ∈ isIntChain "categoryid" msg none none v ↔
      e = ⟨v, msg, "categoryid", "body"⟩ ∧ ¬ Spec.TextIsInteger v := by
  rw [textIsInteger_iff_isInt]
  cases h : isInt (fieldToString v) none none <;> simp [isIntChain, h]

/-- The errors of the review route, rule by rule. -/
theorem mem_reviewErrors (req : ReviewRequest) (e : ValidationError) :
    e ∈ reviewErrors req ↔
      (e = ⟨req.rating, "Please provide a valid rating", "rating", "body"⟩ ∧
        ¬ Spec.RatingValid req.rating) ∨
      (e = ⟨req.review, "Please provide a valid review", "review", "body"⟩ ∧
        ¬ Spec.NonEmpty req.review) := by
  simp only [reviewErrors, List.mem_append, mem_notEmptyChain, mem_ratingChain]

theorem reviewErrors_eq_nil_iff (req : ReviewRequest) :
    reviewErrors req = [] ↔ Spec.RatingValid req.rating ∧ Spec.NonEmpty req.review := by
  rw [List.eq_nil_iff_forall_not_mem]
  simp only [mem_reviewErrors]
  constructor
  · intro h
    constructor
    · by_contra hr
      exact h _ (Or.inl ⟨rfl, hr⟩)
    · by_contra hr
      exact h _ (Or.inr ⟨rfl, hr⟩)
  · rintro ⟨h1, h2⟩ e (⟨_, h⟩ | ⟨_, h⟩)
    · exact h h1
    · exact h h2

/-- The errors of the product route, rule by rule. -/
theorem mem_productErrors (req : ProductRequest) (e : ValidationError) :
    e ∈ productErrors req ↔
      (e = ⟨req.name, "Please provide a valid name.", "name", "body"⟩ ∧
        ¬ Spec.NonEmpty req.name) ∨
      (e = ⟨req.description, "Please provide a valid description", "description", "body"⟩ ∧
        ¬ Spec.NonEmpty req.description) ∨
      (e = ⟨req.categoryid, "Please provide a valid categoryid", "categoryid", "body"⟩ ∧
        ¬ Spec.TextIsInteger req.categoryid) ∨
      (e = ⟨req.brand, "Please provide a valid brand", "brand", "body"⟩ ∧
        ¬ Spec.NonEmpty req.brand) ∨
      (e = ⟨req.price, "Please provide a valid price", "price", "body"⟩ ∧
        ¬ Spec.NonEmpty req.price) := by
  simp only [productErrors, List.mem_append, mem_notEmptyChain, mem_categoryChain, or_assoc]

theorem productErrors_eq_nil_iff (req : ProductRequest) :
    productErrors req = [] ↔ Spec.ProductAccepted req := by
  rw [List.eq_nil_iff_forall_not_mem]
  simp only [mem_productErrors, Spec.ProductAccepted]
  constructor
  · intro h
    refine ⟨?_, ?_, ?_, ?_, ?_⟩
    · by_contra hr
      exact h _ (Or.inl ⟨rfl, hr⟩)
    · by_contra hr
      exact h _ (Or.inr (Or.inl ⟨rfl, hr⟩))
    · by_contra hr
      exact h _ (Or.inr (Or.inr (Or.inl ⟨rfl, hr⟩)))
    · by_contra hr
      exact h _ (Or.inr (Or.inr (Or.inr (Or.inl ⟨rfl, hr⟩))))
    · by_contra hr
      exact h _ (Or.inr (Or.inr (Or.inr (Or.inr ⟨rfl, hr⟩))))
  · rintro ⟨h1, h2, h3, h4, h5⟩ e (⟨_, h⟩ | ⟨_, h⟩ | ⟨_, h⟩ | ⟨_, h⟩ | ⟨_, h⟩)
    · exact h h1
    · exact h h2
    · exact h h3
    · exact h h4
    · exact h h5

/-! ## The handlers with validation -/

theorem createReview_of_errors (db : Store) (req : ReviewRequest) (h : reviewErrors req ≠ []) :
    createReview db req = (⟨400, .json (.errors (reviewErrors req))⟩, []) := by
  have : (reviewErrors req).isEmpty = false := by
    cases hl : reviewErrors req with
    | nil => exact absurd hl h
    | cons e es => rfl
  simp [createReview, this]

theorem createReview_of_no_errors (db : Store) (req : ReviewRequest) (h : reviewErrors req = []) :
    createReview db req =
      match db ⟨sqlInsertReview, [req.userId, .str req.productId, req.rating, req.review]⟩ with
      | .ok results => (⟨201, .json (.object1 "reviewid" (insertIdOf results))⟩,
          [⟨sqlInsertReview, [req.userId, .str req.productId, req.rating, req.review]⟩])
      | .error _ => (internalServerError,
          [⟨sqlInsertReview, [req.userId, .str req.productId, req.rating, req.review]⟩]) := by
  simp [createReview, h]

theorem createProduct_of_errors (db : Store) (req : ProductRequest) (h : productErrors req ≠ []) :
    createProduct db req = (⟨400, .json (.errors (productErrors req))⟩, []) := by
  have : (productErrors req).isEmpty = false := by
    cases hl : productErrors req with
    | nil => exact absurd hl h
    | cons e es => rfl
  simp [createProduct, this]

theorem createProduct_of_no_errors (db : Store) (req : ProductRequest)
    (h : productErrors req = []) :
    createProduct db req =
      match db ⟨sqlInsertProduct, [req.name, req.description, req.categoryid, req.brand,
          req.price,
          (match req.file with
            | some file => JSValue.str file.filename
            | none => JSValue.null),
          (if req.img_src = .str [] then JSValue.null else req.img_src)]⟩ with
      | .ok results => (⟨201, .json (.object1 "productid" (insertIdOf results))⟩,
          [⟨sqlInsertProduct, [req.name, req.description, req.categoryid, req.brand,
            req.price,
            (match req.file with
              | some file => JSValue.str file.filename
              | none => JSValue.null),
            (if req.img_src = .str [] then JSValue.null else req.img_src)]⟩])
      | .error _ => (internalServerError,
          [⟨sqlInsertProduct, [req.name, req.description, req.categoryid, req.brand,
            req.price,
            (match req.file with
              | some file => JSValue.str file.filename
              | none => JSValue.null),
            (if req.img_src = .str [] then JSValue.null else req.img_src)]⟩]) := by
  simp [createProduct, h]

/-- C5: the review route accepts exactly the requests whose rating is an
integer from 0 to 5 and whose review is non-empty.  An accepted request issues
the one INSERT into Reviews with the user id, the path product id, the rating
and the review, in that order, and a successful store gives 201 with the
inserted id as `reviewid`.  A request whose rating is not such an integer, or
whose review is empty, gets 400 with an error entry naming that field, and no
query is issued.  Ratings 0 and 5 are accepted; 6 and -1 are not. -/
theorem createReview_contract :
    (∀ (db : Store) (req : ReviewRequest),
      Spec.RatingValid req.rating → Spec.NonEmpty req.review →
        (createReview db req).2
          = [⟨"INSERT INTO Reviews (userid, productid, rating, review) VALUES (?,?,?,?)",
              [req.userId, .str req.productId, req.rating, req.review]⟩] ∧
        (∀ id, db ⟨"INSERT INTO Reviews (userid, productid, rating, review) VALUES (?,?,?,?)",
              [req.userId, .str req.productId, req.rating, req.review]⟩
            = .ok (.okPacket id) →
          (createReview db req).1 = ⟨201, .json (.object1 "reviewid" (.num id))⟩)) ∧
    (∀ (db : Store) (req : ReviewRequest), ¬ Spec.RatingValid req.rating →
      (createReview db req).2 = [] ∧
      ∃ es, (createReview db req).1 = ⟨400, .json (.errors es)⟩ ∧
        ∃ e ∈ es, e.param = "rating" ∧ e.msg = "Please provide a valid rating") ∧
    (∀ (db : Store) (req : ReviewRequest), ¬ Spec.NonEmpty req.review →
      (createReview db req).2 = [] ∧
      ∃ es, (createReview db req).1 = ⟨400, .json (.errors es)⟩ ∧
        ∃ e ∈ es, e.param = "review" ∧ e.msg = "Please provide a valid review") ∧
    (∀ (db : Store) (req : ReviewRequest),
      (createReview db req).1.status = 400 ↔
        ¬ (Spec.RatingValid req.rating ∧ Spec.NonEmpty req.review)) ∧
    (∀ v ∈ [JSValue.num 0, .num 5, .str "0".toList, .str "5".toList], Spec.RatingValid v) ∧
    (∀ v ∈ [JSValue.num 6, .num (-1), .str "6".toList, .str "-1".toList, .str "4.5".toList,
        .str "five".toList, .str [], .undefined, .num 1000000000000000000000],
      ¬ Spec.RatingValid v) := by
  refine ⟨fun db req hr hv => ?_, fun db req hr => ?_, fun db req hv => ?_, fun db req => ?_,
    ?_, ?_⟩
  · have hnil := (reviewErrors_eq_nil_iff req).2 ⟨hr, hv⟩
    rw [createReview_of_no_errors db req hnil]
    constructor
    · split <;> rfl
    · intro id hid
      have hid' : db ⟨sqlInsertReview, [req.userId, .str req.productId, req.rating, req.review]⟩
          = .ok (.okPacket id) := hid
      rw [hid']
      rfl
  · have hmem : (⟨req.rating, "Please provide a valid rating", "rating", "body"⟩ :
        ValidationError) ∈ reviewErrors req := (mem_reviewErrors req _).2 (Or.inl ⟨rfl, hr⟩)
    rw [createReview_of_errors db req (List.ne_nil_of_mem hmem)]
    exact ⟨rfl, _, rfl, _, hmem, rfl, rfl⟩
  · have hmem : (⟨req.review, "Please provide a valid review", "review", "body"⟩ :
        ValidationError) ∈ reviewErrors req := (mem_reviewErrors req _).2 (Or.inr ⟨rfl, hv⟩)
    rw [createReview_of_errors db req (List.ne_nil_of_mem hmem)]
    exact ⟨rfl, _, rfl, _, hmem, rfl, rfl⟩
  · rw [← reviewErrors_eq_nil_iff]
    by_cases hnil : reviewErrors req = []
    · rw [createReview_of_no_errors db req hnil]
      simp only [hnil, not_true_eq_false, iff_false]
      split <;> simp [internalServerError]
    · rw [createReview_of_errors db req hnil]
      simp [hnil]
  · intro v hv
    rw [ratingValid_iff_isInt]
    revert v
    decide
  · intro v hv
    rw [ratingValid_iff_isInt]
    revert v
    decide

theorem createReview_contract_witness :
    createReview insertingStore ⟨.num 7, "3".toList, .num 5, .str "good".toList⟩
      = (⟨201, .json (.object1 "reviewid" (.num 42))⟩,
          [⟨"INSERT INTO Reviews (userid, productid, rating, review) VALUES (?,?,?,?)",
            [.num 7, .str "3".toList, .num 5, .str "good".toList]⟩]) ∧
    (createReview insertingStore ⟨.num 7, "3".toList, .num 6, .str "good".toList⟩).2 = [] ∧
    (createReview insertingStore ⟨.num 7, "3".toList, .num 5, .str []⟩).2 = [] :=
  have hr : Spec.RatingValid (.num 5) := createReview_contract.2.2.2.2.1 _ (by decide)
  have hn : ¬ Spec.RatingValid (.num 6) := createReview_contract.2.2.2.2.2 _ (by decide)
  have hv : Spec.NonEmpty (.str "good".toList) := by simp [Spec.NonEmpty]
  have he : ¬ Spec.NonEmpty (.str []) := by simp [Spec.NonEmpty]
  have h1 := createReview_contract.1 insertingStore
    ⟨.num 7, "3".toList, .num 5, .str "good".toList⟩ hr hv
  ⟨Prod.ext (h1.2 42 rfl) h1.1,
    (createReview_contract.2.1 insertingStore
      ⟨.num 7, "3".toList, .num 6, .str "good".toList⟩ hn).1,
    (createReview_contract.2.2.1 insertingStore
      ⟨.num 7, "3".toList, .num 5, .str []⟩ he).1⟩

/-- C6: for a request that passes validation the product route issues the one
INSERT into Products with name, description, categoryid, brand, price,
img_name, img_src in that order; the first five are the submitted values,
img_name is null without an uploaded file and the stored file's name with one,
img_src is null when the submitted img_src is the empty string and the
submitted value otherwise; a successful store gives 201 with the inserted id
as `productid`. -/
theorem createProduct_insert_parameters (db : Store) (req : ProductRequest)
    (hvalid : Spec.ProductAccepted req) :
    ∃ img_name img_src : JSValue,
      (req.file = none → img_name = .null) ∧
      (∀ file, req.file = some file → img_name = .str file.filename) ∧
      (req.img_src = .str [] → img_src = .null) ∧
      (req.img_src ≠ .str [] → img_src = req.img_src) ∧
      (createProduct db req).2
        = [⟨"INSERT INTO Products (name, description, categoryid, brand, price, img_name, img_src) VALUES (?,?,?,?,?,?,?)",
            [req.name, req.description, req.categoryid, req.brand, req.price,
              img_name, img_src]⟩] ∧
      (∀ id, db ⟨"INSERT INTO Products (name, description, categoryid, brand, price, img_name, img_src) VALUES (?,?,?,?,?,?,?)",
            [req.name, req.description, req.categoryid, req.brand, req.price,
              img_name, img_src]⟩ = .ok (.okPacket id) →
        (createProduct db req).1 = ⟨201, .json (.object1 "productid" (.num id))⟩) := by
  have hnil := (productErrors_eq_nil_iff req).2 hvalid
  refine ⟨(match req.file with
            | some file => JSValue.str file.filename
            | none => JSValue.null),
          (if req.img_src = .str [] then JSValue.null else req.img_src), ?_, ?_, ?_, ?_, ?_, ?_⟩
  · intro h
    rw [h]
  · intro file h
    rw [h]
  · intro h
    rw [if_pos h]
  · intro h
    rw [if_neg h]
  · rw [createProduct_of_no_errors db req hnil]
    split <;> rfl
  · intro id hid
    rw [createProduct_of_no_errors db req hnil]
    have hid' : db ⟨sqlInsertProduct, [req.name, req.description, req.categoryid, req.brand,
        req.price,
        (match req.file with
          | some file => JSValue.str file.filename
          | none => JSValue.null),
        (if req.img_src = .str [] then JSValue.null else req.img_src)]⟩
        = .ok (.okPacket id) := hid
    rw [hid']
    rfl

theorem createProduct_insert_parameters_witness :
    Spec.ProductAccepted sampleProduct ∧
    ∃ img_name img_src : JSValue,
      (sampleProduct.file = none → img_name = .null) ∧
      (∀ file, sampleProduct.file = some file → img_name = .str file.filename) ∧
      (sampleProduct.img_src = .str [] → img_src = .null) ∧
      (sampleProduct.img_src ≠ .str [] → img_src = sampleProduct.img_src) ∧
      (createProduct insertingStore sampleProduct).2
        = [⟨"INSERT INTO Products (name, description, categoryid, brand, price, img_name, img_src) VALUES (?,?,?,?,?,?,?)",
            [sampleProduct.name, sampleProduct.description,
            sampleProduct.categoryid, sampleProduct.brand, sampleProduct.price,
            img_name, img_src]⟩] ∧
      (∀ id, insertingStore ⟨"INSERT INTO Products (name, description, categoryid, brand, price, img_name, img_src) VALUES (?,?,?,?,?,?,?)",
            [sampleProduct.name, sampleProduct.description,
            sampleProduct.categoryid, sampleProduct.brand, sampleProduct.price,
            img_name, img_src]⟩ = .ok (.okPacket id) →
        (createProduct insertingStore sampleProduct).1
          = ⟨201, .json (.object1 "productid" (.num id))⟩) :=
  ⟨(productErrors_eq_nil_iff sampleProduct).1 (by decide),
    createProduct_insert_parameters insertingStore sampleProduct
      ((productErrors_eq_nil_iff sampleProduct).1 (by decide))⟩

/-- C7 (counterexample to the claim as stated): a request whose name,
description, brand and price are non-empty and whose categoryid is the
integer 10^21, sent as a number, is rejected with status 400 and a categoryid
error, because `String(1e21)` is `1e+21`; so rejection does not coincide with
a violation of one of the five rules as the claim words them. -/
theorem createProduct_rejects_integer_categoryid :
    Spec.ProductValid largeCategoryProduct ∧
    numberToString 1000000000000000000000 = "1e+21".toList ∧
    createProduct insertingStore largeCategoryProduct
      = (⟨400, .json (.errors [⟨.num 1000000000000000000000,
          "Please provide a valid categoryid", "categoryid", "body"⟩])⟩, []) ∧
    ¬ ((createProduct insertingStore largeCategoryProduct).1.status = 400 ↔
        (¬ Spec.NonEmpty largeCategoryProduct.name ∨
          ¬ Spec.NonEmpty largeCategoryProduct.description ∨
          ¬ Spec.ParsesAsInteger largeCategoryProduct.categoryid ∨
          ¬ Spec.NonEmpty largeCategoryProduct.brand ∨
          ¬ Spec.NonEmpty largeCategoryProduct.price)) := by
  have h1 : Spec.NonEmpty largeCategoryProduct.name := by simp [largeCategoryProduct, Spec.NonEmpty]
  have h2 : Spec.NonEmpty largeCategoryProduct.description := by
    simp [largeCategoryProduct, Spec.NonEmpty]
  have h3 : Spec.ParsesAsInteger largeCategoryProduct.categoryid := ⟨_, rfl⟩
  have h4 : Spec.NonEmpty largeCategoryProduct.brand := by
    simp [largeCategoryProduct, Spec.NonEmpty]
  have h5 : Spec.NonEmpty largeCategoryProduct.price := by
    simp [largeCategoryProduct, Spec.NonEmpty]
  have herr : productErrors largeCategoryProduct = [⟨.num 1000000000000000000000,
      "Please provide a valid categoryid", "categoryid", "body"⟩] := by decide
  have hrun : createProduct insertingStore largeCategoryProduct
      = (⟨400, .json (.errors [⟨.num 1000000000000000000000,
          "Please provide a valid categoryid", "categoryid", "body"⟩])⟩, []) := by
    rw [createProduct_of_errors _ _ (by rw [herr]; simp), herr]
  refine ⟨⟨h1, h2, h3, h4, h5⟩, by decide, hrun, ?_⟩
  rw [hrun]
  intro hiff
  rcases hiff.1 rfl with h | h | h | h | h
  · exact h h1
  · exact h h2
  · exact h h3
  · exact h h4
  · exact h h5

/-- C7 (as amended): the product route rejects a request exactly when name is
empty, description is empty, the text of categoryid (the string itself, or
`String(n)` for a number) is not an optional sign followed by decimal digits,
brand is empty or price is empty.  For a string, and for a number below 2^53
in magnitude, that is the claim's "does not parse as an integer"; the number
10^21, written `1e+21`, is rejected.  A rejected request gets 400 with
`errors` holding one entry for every violated rule and nothing else, each with
the field and its message, and no query is issued.  Price is only checked for
presence: any non-empty text, numeric or not, passes. -/
theorem createProduct_validation :
    (∀ (db : Store) (req : ProductRequest),
      (createProduct db req).1.status = 400 ↔
        (¬ Spec.NonEmpty req.name ∨ ¬ Spec.NonEmpty req.description ∨
          ¬ Spec.TextIsInteger req.categoryid ∨ ¬ Spec.NonEmpty req.brand ∨
          ¬ Spec.NonEmpty req.price)) ∧
    (∀ s : JSString, Spec.TextIsInteger (.str s) ↔ Spec.ParsesAsInteger (.str s)) ∧
    (∀ m : Int, m.natAbs < 2 ^ 53 → Spec.TextIsInteger (.num m)) ∧
    ¬ Spec.TextIsInteger (.num 1000000000000000000000) ∧
    (∀ (db : Store) (req : ProductRequest), (createProduct db req).1.status = 400 →
      (createProduct db req).2 = [] ∧
      ∃ es, (createProduct db req).1 = ⟨400, .json (.errors es)⟩ ∧
        ∀ e, e ∈ es ↔
          (e = ⟨req.name, "Please provide a valid name.", "name", "body"⟩ ∧
            ¬ Spec.NonEmpty req.name) ∨
          (e = ⟨req.description, "Please provide a valid description", "description", "body"⟩ ∧
            ¬ Spec.NonEmpty req.description) ∨
          (e = ⟨req.categoryid, "Please provide a valid categoryid", "categoryid", "body"⟩ ∧
            ¬ Spec.TextIsInteger req.categoryid) ∨
          (e = ⟨req.brand, "Please provide a valid brand", "brand", "body"⟩ ∧
            ¬ Spec.NonEmpty req.brand) ∨
          (e = ⟨req.price, "Please provide a valid price", "price", "body"⟩ ∧
            ¬ Spec.NonEmpty req.price)) ∧
    (∀ (db : Store) (req : ProductRequest) (price : JSString),
      Spec.NonEmpty req.name → Spec.NonEmpty req.description →
      Spec.TextIsInteger req.categoryid → Spec.NonEmpty req.brand →
      req.price = .str price → price ≠ [] →
        (createProduct db req).1.status ≠ 400) := by
  have hiff : ∀ (db : Store) (req : ProductRequest),
      (createProduct db req).1.status = 400 ↔ productErrors req ≠ [] := by
    intro db req
    by_cases hnil : productErrors req = []
    · rw [createProduct_of_no_errors db req hnil]
      simp only [hnil, ne_eq, not_true_eq_false, iff_false]
      split <;> simp [internalServerError]
    · rw [createProduct_of_errors db req hnil]
      simp [hnil]
  have hvalid : ∀ req : ProductRequest, productErrors req ≠ [] ↔
      (¬ Spec.NonEmpty req.name ∨ ¬ Spec.NonEmpty req.description ∨
        ¬ Spec.TextIsInteger req.categoryid ∨ ¬ Spec.NonEmpty req.brand ∨
        ¬ Spec.NonEmpty req.price) := by
    intro req
    rw [ne_eq, productErrors_eq_nil_iff, Spec.ProductAccepted]
    tauto
  refine ⟨fun db req => (hiff db req).trans (hvalid req), textIsInteger_str,
    textIsInteger_num_small, ?_, fun db req h => ?_,
    fun db req price h1 h2 h3 h4 hp hne => ?_⟩
  · rw [textIsInteger_iff_isInt]
    decide
  · have hne := (hiff db req).1 h
    rw [createProduct_of_errors db req hne]
    exact ⟨rfl, _, rfl, mem_productErrors req⟩
  · rw [ne_eq, hiff, ne_eq, not_not, productErrors_eq_nil_iff]
    refine ⟨h1, h2, h3, h4, ?_⟩
    rw [hp]
    exact hne

theorem createProduct_validation_witness :
    (createProduct insertingStore ⟨.str "Runner".toList, .str "A shoe".toList,
        .str "3".toList, .str "Nike".toList, .str "abc".toList, .undefined, none⟩).1.status
      ≠ 400 ∧
    (createProduct insertingStore ⟨.str "Runner".toList, .str "A shoe".toList,
        .num 3, .str "Nike".toList, .str "abc".toList, .undefined, none⟩).1.status
      ≠ 400 ∧
    (createProduct insertingStore ⟨.str [], .str "A shoe".toList,
        .str "x3".toList, .str "Nike".toList, .undefined, .undefined, none⟩).2 = [] :=
  ⟨createProduct_validation.2.2.2.2.2 insertingStore _ "abc".toList
      (by simp [Spec.NonEmpty]) (by simp [Spec.NonEmpty])
      ((textIsInteger_iff_isInt _).2 (by decide))
      (by simp [Spec.NonEmpty]) rfl (by decide),
    createProduct_validation.2.2.2.2.2 insertingStore _ "abc".toList
      (by simp [Spec.NonEmpty]) (by simp [Spec.NonEmpty])
      (createProduct_validation.2.2.1 3 (by decide))
      (by simp [Spec.NonEmpty]) rfl (by decide),
    (createProduct_validation.2.2.2.2.1 insertingStore _
      ((createProduct_validation.1 insertingStore _).2 (Or.inl (by simp [Spec.NonEmpty])))).1⟩

/-! ## Store failures -/

theorem followsStore_nil (db : Store) (success : Nat) (out : Response × List Query)
    (h : out.2 = []) : Spec.FollowsStore db success out := by
  intro q hq
  rw [h] at hq
  cases hq

theorem followsStore_single (db : Store) (success : Nat) (out : Response × List Query)
    (q : Query) (htrace : out.2 = [q])
    (herr : ∀ e, db q = .error e → out.1 = internalServerError)
    (hok : ∀ r, db q = .ok r → out.1.status = success) :
    Spec.FollowsStore db success out := by
  intro q' hq'
  rw [htrace, List.mem_singleton] at hq'
  subst hq'
  constructor
  · intro e he
    exact Prod.ext (herr e he) htrace
  · intro r hr
    exact ⟨hok r hr, htrace⟩

theorem searchDispatch_follows (db : Store) (x y : JSString) :
    Spec.FollowsStore db 200
      (searchDispatch db (.str ("%".toList ++ x ++ "%".toList))
        (.str ("%".toList ++ y ++ "%".toList))) := by
  rw [searchDispatch_wrapped]
  apply followsStore_single db 200 _
    ⟨sqlSearchBoth, [.str ("%".toList ++ x ++ "%".toList), .str ("%".toList ++ y ++ "%".toList)]⟩
  · split <;> rfl
  · intro e he
    rw [he]
  · intro r hr
    rw [hr]

theorem searchProducts_follows (db : Store) (brand keyword : JSValue) :
    Spec.FollowsStore db 200 (searchProducts db brand keyword) := by
  unfold searchProducts
  split
  · exact followsStore_nil _ _ _ rfl
  · cases brand with
    | str b =>
      cases keyword with
      | str k => exact searchDispatch_follows db _ _
      | undefined => exact followsStore_nil _ _ _ rfl
      | null => exact followsStore_nil _ _ _ rfl
      | bool _ => exact followsStore_nil _ _ _ rfl
      | num _ => exact followsStore_nil _ _ _ rfl
    | undefined => exact followsStore_nil _ _ _ rfl
    | null => exact followsStore_nil _ _ _ rfl
    | bool _ => exact followsStore_nil _ _ _ rfl
    | num _ => exact followsStore_nil _ _ _ rfl

theorem createProduct_follows (db : Store) (req : ProductRequest) :
    Spec.FollowsStore db 201 (createProduct db req) := by
  by_cases hnil : productErrors req = []
  · rw [createProduct_of_no_errors db req hnil]
    refine followsStore_single db 201 _
      ⟨sqlInsertProduct, [req.name, req.description, req.categoryid, req.brand,
        req.price,
        (match req.file with
          | some file => JSValue.str file.filename
          | none => JSValue.null),
        (if req.img_src = .str [] then JSValue.null else req.img_src)]⟩ ?_ ?_ ?_
    · split <;> rfl
    · intro e he
      rw [he]
    · intro r hr
      rw [hr]
  · rw [createProduct_of_errors db req hnil]
    exact followsStore_nil _ _ _ rfl

theorem createReview_follows (db : Store) (req : ReviewRequest) :
    Spec.FollowsStore db 201 (createReview db req) := by
  by_cases hnil : reviewErrors req = []
  · rw [createReview_of_no_errors db req hnil]
    refine followsStore_single db 201 _
      ⟨sqlInsertReview, [req.userId, .str req.productId, req.rating, req.review]⟩ ?_ ?_ ?_
    · split <;> rfl
    · intro e he
      rw [he]
    · intro r hr
      rw [hr]
  · rw [createReview_of_errors db req hnil]
    exact followsStore_nil _ _ _ rfl

theorem getProductById_eq (db : Store) (id : JSString) :
    getProductById db id =
      match db ⟨sqlGetProduct, [.str id]⟩ with
      | .ok result => (⟨200, .json (index0 result)⟩, [⟨sqlGetProduct, [.str id]⟩])
      | .error _ => (internalServerError, [⟨sqlGetProduct, [.str id]⟩]) := rfl

theorem listProducts_eq (db : Store) :
    listProducts db =
      match db ⟨sqlListProducts, []⟩ with
      | .ok result => (⟨200, .json (.result result)⟩, [⟨sqlListProducts, []⟩])
      | .error _ => (internalServerError, [⟨sqlListProducts, []⟩]) := rfl

theorem deleteProduct_eq (db : Store) (id : JSString) :
    deleteProduct db id =
      match db ⟨sqlDeleteProduct, [.str id]⟩ with
      | .ok _ => (⟨204, .send "No Content"⟩, [⟨sqlDeleteProduct, [.str id]⟩])
      | .error _ => (internalServerError, [⟨sqlDeleteProduct, [.str id]⟩]) := rfl

theorem listReviews_eq (db : Store) (id : JSString) :
    listReviews db id =
      match db ⟨sqlListReviews, [.str id]⟩ with
      | .ok results => (⟨200, .json (.result results)⟩, [⟨sqlListReviews, [.str id]⟩])
      | .error _ => (internalServerError, [⟨sqlListReviews, [.str id]⟩]) := rfl

theorem getProductById_follows (db : Store) (id : JSString) :
    Spec.FollowsStore db 200 (getProductById db id) := by
  refine followsStore_single db 200 _ ⟨sqlGetProduct, [.str id]⟩ ?_ ?_ ?_
  · rw [getProductById_eq]
    split <;> rfl
  · intro e he
    rw [getProductById_eq, he]
  · intro r hr
    rw [getProductById_eq, hr]

theorem listProducts_follows (db : Store) : Spec.FollowsStore db 200 (listProducts db) := by
  refine followsStore_single db 200 _ ⟨sqlListProducts, []⟩ ?_ ?_ ?_
  · rw [listProducts_eq]
    split <;> rfl
  · intro e he
    rw [listProducts_eq, he]
  · intro r hr
    rw [listProducts_eq, hr]

theorem deleteProduct_follows (db : Store) (id : JSString) :
    Spec.FollowsStore db 204 (deleteProduct db id) := by
  refine followsStore_single db 204 _ ⟨sqlDeleteProduct, [.str id]⟩ ?_ ?_ ?_
  · rw [deleteProduct_eq]
    split <;> rfl
  · intro e he
    rw [deleteProduct_eq, he]
  · intro r hr
    rw [deleteProduct_eq, hr]

theorem listReviews_follows (db : Store) (id : JSString) :
    Spec.FollowsStore db 200 (listReviews db id) := by
  refine followsStore_single db 200 _ ⟨sqlListReviews, [.str id]⟩ ?_ ?_ ?_
  · rw [listReviews_eq]
    split <;> rfl
  · intro e he
    rw [listReviews_eq, he]
  · intro r hr
    rw [listReviews_eq, hr]

/-- C8: in each of the seven handlers a store query that fails gives the
response 500 with the plain text `Internal Server Error`, whatever the error
holds, and no other query is issued; a store query that succeeds gives the
success status of the handler: 201 for CreateProduct, 200 for SearchProducts,
GetProductById and ListProducts, 204 for DeleteProduct, 201 for CreateReview,
200 for ListReviewsForProduct. -/
theorem handlers_follow_store (db : Store) :
    (∀ req : ProductRequest, Spec.FollowsStore db 201 (createProduct db req)) ∧
    (∀ brand keyword : JSValue, Spec.FollowsStore db 200 (searchProducts db brand keyword)) ∧
    (∀ id : JSString, Spec.FollowsStore db 200 (getProductById db id)) ∧
    Spec.FollowsStore db 200 (listProducts db) ∧
    (∀ id : JSString, Spec.FollowsStore db 204 (deleteProduct db id)) ∧
    (∀ req : ReviewRequest, Spec.FollowsStore db 201 (createReview db req)) ∧
    (∀ id : JSString, Spec.FollowsStore db 200 (listReviews db id)) :=
  ⟨createProduct_follows db, searchProducts_follows db, getProductById_follows db,
    listProducts_follows db, deleteProduct_follows db, createReview_follows db,
    listReviews_follows db⟩

theorem handlers_follow_store_witness :
    createProduct failingStore sampleProduct
      = (⟨500, .send "Internal Server Error"⟩,
          [⟨sqlInsertProduct, [.str "Runner".toList, .str "A shoe".toList, .str "3".toList,
            .str "Nike".toList, .str "59.90".toList, .null, .null]⟩]) ∧
    searchProducts failingStore (.str "nike".toList) (.str "air".toList)
      = (⟨500, .send "Internal Server Error"⟩,
          [⟨sqlSearchBoth, [.str "%nike%".toList, .str "%air%".toList]⟩]) ∧
    getProductById failingStore "7".toList
      = (⟨500, .send "Internal Server Error"⟩, [⟨sqlGetProduct, [.str "7".toList]⟩]) ∧
    listProducts failingStore
      = (⟨500, .send "Internal Server Error"⟩, [⟨sqlListProducts, []⟩]) ∧
    deleteProduct failingStore "7".toList
      = (⟨500, .send "Internal Server Error"⟩, [⟨sqlDeleteProduct, [.str "7".toList]⟩]) ∧
    createReview failingStore ⟨.num 1, "7".toList, .num 5, .str "good".toList⟩
      = (⟨500, .send "Internal Server Error"⟩,
          [⟨sqlInsertReview, [.num 1, .str "7".toList, .num 5, .str "good".toList]⟩]) ∧
    listReviews failingStore "7".toList
      = (⟨500, .send "Internal Server Error"⟩, [⟨sqlListReviews, [.str "7".toList]⟩]) ∧
    (deleteProduct emptyStore "7".toList).1.status = 204 :=
  ⟨((handlers_follow_store failingStore).1 sampleProduct
      ⟨sqlInsertProduct, [.str "Runner".toList, .str "A shoe".toList, .str "3".toList,
        .str "Nike".toList, .str "59.90".toList, .null, .null]⟩ (List.Mem.head _)).1 _ rfl,
    ((handlers_follow_store failingStore).2.1 (.str "nike".toList) (.str "air".toList)
      ⟨sqlSearchBoth, [.str "%nike%".toList, .str "%air%".toList]⟩ (List.Mem.head _)).1 _ rfl,
    ((handlers_follow_store failingStore).2.2.1 "7".toList
      ⟨sqlGetProduct, [.str "7".toList]⟩ (List.Mem.head _)).1 _ rfl,
    ((handlers_follow_store failingStore).2.2.2.1
      ⟨sqlListProducts, []⟩ (List.Mem.head _)).1 _ rfl,
    ((handlers_follow_store failingStore).2.2.2.2.1 "7".toList
      ⟨sqlDeleteProduct, [.str "7".toList]⟩ (List.Mem.head _)).1 _ rfl,
    ((handlers_follow_store failingStore).2.2.2.2.2.1
      ⟨.num 1, "7".toList, .num 5, .str "good".toList⟩
      ⟨sqlInsertReview, [.num 1, .str "7".toList, .num 5, .str "good".toList]⟩
      (List.Mem.head _)).1 _ rfl,
    ((handlers_follow_store failingStore).2.2.2.2.2.2 "7".toList
      ⟨sqlListReviews, [.str "7".toList]⟩ (List.Mem.head _)).1 _ rfl,
    (((handlers_follow_store emptyStore).2.2.2.2.1 "7".toList
      ⟨sqlDeleteProduct, [.str "7".toList]⟩ (List.Mem.head _)).2 _ rfl).1⟩

/-- C9: when the store query of GetProductById succeeds the status is 200 and
the body is the first row of the result; with no row the status is still 200,
with the absent value as body, and is neither 404 nor 500; with several rows
only the first is returned. -/
theorem getProductById_first_row (db : Store) (id : JSString) :
    (∀ result, db ⟨sqlGetProduct, [.str id]⟩ = .ok result →
      (getProductById db id).1.status = 200) ∧
    (∀ r rest, db ⟨sqlGetProduct, [.str id]⟩ = .ok (.rows (r :: rest)) →
      (getProductById db id).1 = ⟨200, .json (.row r)⟩) ∧
    (db ⟨sqlGetProduct, [.str id]⟩ = .ok (.rows []) →
      (getProductById db id).1 = ⟨200, .json .undefined⟩ ∧
      (getProductById db id).1.status ≠ 404 ∧ (getProductById db id).1.status ≠ 500) ∧
    (getProductById db id).2 = [⟨sqlGetProduct, [.str id]⟩] := by
  refine ⟨fun result h => ?_, fun r rest h => ?_, fun h => ?_, ?_⟩
  · rw [getProductById_eq, h]
  · rw [getProductById_eq, h]
    rfl
  · rw [getProductById_eq, h]
    refine ⟨rfl, ?_, ?_⟩ <;> simp
  · rw [getProductById_eq]
    split <;> rfl

theorem getProductById_first_row_witness :
    (getProductById emptyStore "404".toList).1 = ⟨200, .json .undefined⟩ ∧
    (getProductById emptyStore "404".toList).1.status ≠ 404 ∧
    (getProductById emptyStore "404".toList).1.status ≠ 500 :=
  (getProductById_first_row emptyStore "404".toList).2.2.1 rfl

end ProductResource
